import Mathlib

/-!
A verification development for `atlite/preparation.py` (the cutout
preparation pipeline of the atlite repository).

The Python module is shallowly embedded: Python dicts become association
lists, the process pool becomes a sequential fold that stops at the first
raised exception (`multiprocessing.Pool.map` re-raises the first worker
exception and the orchestrator then terminates the pool), the filesystem
becomes an explicit record of directories and files, logging and dataset
open/close calls become an explicit event trace, and raised exceptions
become `Except` errors carrying the Python exception type and its `args`
tuple (as a list of strings).

The `Cutout` object itself (its coordinate bookkeeping, `datasetfn` naming
scheme and `weather_data_config`) is not part of this module's source; its
fields are modelled from the spec where needed.
-/

set_option autoImplicit false

/-- A raised Python exception: its type name and its `args` tuple
(rendered as strings). -/
structure Exc where
  ty : String
  args : List String
deriving DecidableEq, Repr

/-- A year-month pair, one entry of the cutout's compound time index. -/
abbrev YM := Nat × Nat

/-- The payload of one variable of an `xarray` dataset. Either an opaque
numeric payload or the static height field produced by
`prepare_gebco_height` (which records which raster file it was
interpolated from, and how). -/
inductive DVal where
  | num : Int → DVal
  | hgt : String → String → DVal   -- source filename, resampling method
deriving DecidableEq, Repr

/-- Model of an `xarray.Dataset` as produced by an extraction function:
its `data_vars` (name/payload pairs, first binding wins on lookup) and
whether `.load()` has been called on it. -/
structure Dataset where
  vars : List (String × DVal)
  loaded : Bool := false
deriving DecidableEq, Repr

/-- `ds.load()`: force full materialization. -/
def Dataset.load (d : Dataset) : Dataset := { d with loaded := true }

/-- The names of a dataset's variables (`ds.data_vars`). -/
def Dataset.varNames (d : Dataset) : List String := d.vars.map (·.1)

/-- Values stored in a Python task-descriptor dict. -/
inductive PyVal where
  | str : String → PyVal
  | num : Int → PyVal
  | func : Nat → PyVal                      -- a function object (index into a table)
  | dsh : Nat → PyVal                       -- an open dataset handle
  | fnsMap : List (YM × String) → PyVal     -- the `datasetfns` year-month → filename dict
  | attrsV : List (String × String) → PyVal -- the `meta_attrs` mapping
deriving DecidableEq, Repr

/-- A Python dict with string keys (insertion order kept, first binding
wins on lookup). -/
abbrev PyDict := List (String × PyVal)

/-- Generic lookup in an association list (the first binding wins, as in
a Python dict that never holds duplicate keys). -/
def alGet {κ α : Type} [DecidableEq κ] : List (κ × α) → κ → Option α
  | [], _ => none
  | p :: ps, k => if p.1 = k then some p.2 else alGet ps k

/-- Remove every binding of a key (`del d[k]` / the removal half of
`d.pop(k)`). -/
def alErase {κ α : Type} [DecidableEq κ] : List (κ × α) → κ → List (κ × α)
  | [], _ => []
  | p :: ps, k => if p.1 = k then alErase ps k else p :: alErase ps k

/-- `d[k] = v`: overwrite or append a binding. -/
def alSet {κ α : Type} [DecidableEq κ] (d : List (κ × α)) (k : κ) (v : α) :
    List (κ × α) :=
  alErase d k ++ [(k, v)]

@[simp] theorem alGet_nil {κ α : Type} [DecidableEq κ] (k : κ) :
    alGet ([] : List (κ × α)) k = none := rfl

@[simp] theorem alGet_cons {κ α : Type} [DecidableEq κ] (p : κ × α)
    (ps : List (κ × α)) (k : κ) :
    alGet (p :: ps) k = if p.1 = k then some p.2 else alGet ps k := rfl

theorem alGet_append {κ α : Type} [DecidableEq κ] (l₁ l₂ : List (κ × α)) (k : κ) :
    alGet (l₁ ++ l₂) k = (alGet l₁ k).orElse (fun _ => alGet l₂ k) := by
  induction l₁ with
  | nil => simp
  | cons p ps ih =>
    by_cases h : p.1 = k <;> simp [alGet, h, ih, Option.orElse]

theorem alGet_alErase_ne {κ α : Type} [DecidableEq κ] (d : List (κ × α))
    (k k' : κ) (h : k' ≠ k) : alGet (alErase d k) k' = alGet d k' := by
  induction d with
  | nil => rfl
  | cons p ps ih =>
    simp only [alErase]
    by_cases hp : p.1 = k
    · rw [if_pos hp, ih, alGet_cons, if_neg (fun hh : p.1 = k' => h (hh ▸ hp))]
    · rw [if_neg hp, alGet_cons, alGet_cons, ih]

@[simp] theorem alGet_alErase_self {κ α : Type} [DecidableEq κ]
    (d : List (κ × α)) (k : κ) : alGet (alErase d k) k = none := by
  induction d with
  | nil => rfl
  | cons p ps ih =>
    by_cases hp : p.1 = k <;> simp [alErase, alGet, hp, ih]

@[simp] theorem alGet_alSet_self {κ α : Type} [DecidableEq κ]
    (d : List (κ × α)) (k : κ) (v : α) : alGet (alSet d k v) k = some v := by
  simp [alSet, alGet_append, Option.orElse]

theorem alGet_alSet_ne {κ α : Type} [DecidableEq κ] (d : List (κ × α))
    (k k' : κ) (v : α) (h : k' ≠ k) :
    alGet (alSet d k v) k' = alGet d k' := by
  have hne : ¬(k = k') := fun hh => h hh.symm
  have hsingle : alGet [(k, v)] k' = none := by simp [alGet, hne]
  rw [alSet, alGet_append, alGet_alErase_ne d k k' h]
  cases hg : alGet d k' <;> simp [Option.orElse, hsingle]

/-! ## Filesystem, event trace, and heap of task dicts -/

/-- The on-disk state: the set of directories and the files (netCDF files
are modelled by the `Dataset` they hold; the cutout's primary metadata
file is stored as an opaque one-variable dataset). -/
structure FS where
  dirs : List String
  files : List (String × Dataset)
deriving DecidableEq, Repr

/-- `os.path.isdir`. -/
def FS.isdir (fs : FS) (d : String) : Bool := fs.dirs.contains d

/-- Whether a path lies strictly inside a directory. -/
def isUnder (dir fn : String) : Bool := (dir ++ "/").data.isPrefixOf fn.data

/-- `shutil.rmtree`: remove the directory, everything below it, and all
files inside it. -/
def FS.rmtree (fs : FS) (d : String) : FS :=
  { dirs := fs.dirs.filter (fun x => x != d && !(isUnder d x)),
    files := fs.files.filter (fun p => !(isUnder d p.1)) }

/-- `os.mkdir`. -/
def FS.mkdir (fs : FS) (d : String) : FS := { fs with dirs := fs.dirs ++ [d] }

/-- `ds.to_netcdf(fn)`: write (or overwrite) a file. -/
def FS.writeFile (fs : FS) (fn : String) (ds : Dataset) : FS :=
  { fs with files := alSet fs.files fn ds }

/-- `os.unlink`. -/
def FS.unlink (fs : FS) (fn : String) : FS :=
  { fs with files := alErase fs.files fn }

/-- Read a file's dataset, if the file exists. -/
def FS.lookupFile (fs : FS) (fn : String) : Option Dataset := alGet fs.files fn

/-- The files inside a directory. -/
def filesUnder (fs : FS) (d : String) : List (String × Dataset) :=
  fs.files.filter (fun p => isUnder d p.1)

@[simp] theorem isdir_rmtree (fs : FS) (d : String) :
    (fs.rmtree d).isdir d = false := by
  simp only [FS.isdir, FS.rmtree]
  induction fs.dirs with
  | nil => rfl
  | cons a as ih =>
    by_cases ha : a = d
    · subst ha
      simp [List.filter, ih]
    · have hb : (a != d) = true := bne_iff_ne.mpr ha
      cases hp : isUnder d a <;>
        simp [List.filter, hb, hp, ih, beq_eq_false_iff_ne, Ne.symm ha]

@[simp] theorem filesUnder_rmtree (fs : FS) (d : String) :
    filesUnder (fs.rmtree d) d = [] := by
  simp only [filesUnder, FS.rmtree, List.filter_filter]
  apply List.filter_eq_nil_iff.mpr
  intro p _
  cases h : isUnder d p.1 <;> simp [h]

/-- Observable trace of the pipeline: dataset opens/closes, calls into
extraction functions, file writes, and log records. -/
inductive Event where
  | openedDS : String → String → Nat → Event       -- filename, engine, handle
  | closedDS : Nat → Event
  | calledPrep : Nat → PyDict → Event              -- extraction function, its kwargs
  | wroteFile : String → List String → String → Event  -- filename, variables, func name
  | logExc : String → String → Event               -- func name, first exception arg
  | warnGdal : Event                               -- gdalwarp-missing warning
  | poolTerminated : Event
deriving DecidableEq, Repr

/-- The world the pipeline acts on: filesystem, event trace, and the
bookkeeping for open dataset handles. -/
structure World where
  fs : FS
  events : List Event
  nextHandle : Nat
  openHandles : List Nat
deriving DecidableEq, Repr

/-- A heap of Python dicts, so that object identity and in-place
mutation of task descriptors (`task.pop`, `task['ds'] = ...`) are
modelled faithfully: a task is passed around as a reference. -/
structure DictHeap where
  cells : List PyDict
deriving DecidableEq, Repr

/-- Dereference (a dangling reference reads as the empty dict). -/
def DictHeap.get (h : DictHeap) (r : Nat) : PyDict := h.cells.getD r []

/-- Overwrite the dict a reference points to. -/
def DictHeap.set (h : DictHeap) (r : Nat) (d : PyDict) : DictHeap :=
  ⟨h.cells.set r d⟩

/-- Allocate a fresh dict (`task.copy()` allocates), returning its
reference. -/
def DictHeap.alloc (h : DictHeap) (d : PyDict) : DictHeap × Nat :=
  (⟨h.cells ++ [d]⟩, h.cells.length)

theorem DictHeap.get_alloc_old (h : DictHeap) (d : PyDict) (r : Nat)
    (hr : r < h.cells.length) : (h.alloc d).1.get r = h.get r := by
  simp [DictHeap.alloc, DictHeap.get, List.getD,
    List.getElem?_append_left hr]

@[simp] theorem DictHeap.get_alloc_new (h : DictHeap) (d : PyDict) :
    (h.alloc d).1.get (h.alloc d).2 = d := by
  simp [DictHeap.alloc, DictHeap.get, List.getD]

theorem DictHeap.get_set_ne (h : DictHeap) (r r' : Nat) (d : PyDict)
    (hne : r' ≠ r) : (h.set r d).get r' = h.get r' := by
  simp [DictHeap.set, DictHeap.get, List.getD, List.getElem?_set_ne hne.symm]

theorem DictHeap.get_set_self (h : DictHeap) (r : Nat) (d : PyDict)
    (hr : r < h.cells.length) : (h.set r d).get r = d := by
  simp [DictHeap.set, DictHeap.get, List.getD, List.getElem?_set_self, hr]

@[simp] theorem DictHeap.alloc_length (h : DictHeap) (d : PyDict) :
    (h.alloc d).1.cells.length = h.cells.length + 1 := by
  simp [DictHeap.alloc]

@[simp] theorem DictHeap.set_length (h : DictHeap) (r : Nat) (d : PyDict) :
    (h.set r d).cells.length = h.cells.length := by
  simp [DictHeap.set]

/-! ## Decimal rendering of a task index: `"{}".format(i)` -/

/-- One decimal digit as a character (only arguments `< 10` occur). -/
def decDigitChar (d : Nat) : Char :=
  match d with
  | 0 => '0' | 1 => '1' | 2 => '2' | 3 => '3' | 4 => '4'
  | 5 => '5' | 6 => '6' | 7 => '7' | 8 => '8' | _ => '9'

/-- Little-endian decimal digits, with explicit fuel (the fuel is always
sufficient when it is at least the number itself). -/
def decDigitsAux : Nat → Nat → List Nat
  | _, 0 => []
  | 0, _ => []
  | fuel + 1, n + 1 => ((n + 1) % 10) :: decDigitsAux fuel ((n + 1) / 10)

/-- Little-endian decimal digits of `n`. -/
def decDigits (n : Nat) : List Nat := decDigitsAux n n

/-- Value of a little-endian digit list. -/
def decVal : List Nat → Nat
  | [] => 0
  | d :: ds => d + 10 * decVal ds

theorem decVal_decDigitsAux :
    ∀ fuel n : Nat, n ≤ fuel → decVal (decDigitsAux fuel n) = n := by
  intro fuel
  induction fuel with
  | zero =>
    intro n hn
    interval_cases n
    rfl
  | succ f ih =>
    intro n hn
    match n with
    | 0 => rfl
    | m + 1 =>
      have hdiv : (m + 1) / 10 ≤ f := by
        have h1 : (m + 1) / 10 < m + 1 := Nat.div_lt_self (Nat.succ_pos m) (by omega)
        omega
      simp only [decDigitsAux, decVal, ih _ hdiv]
      omega

theorem decVal_decDigits (n : Nat) : decVal (decDigits n) = n :=
  decVal_decDigitsAux n n (Nat.le_refl n)

theorem decDigitsAux_lt_ten :
    ∀ fuel n : Nat, ∀ d ∈ decDigitsAux fuel n, d < 10 := by
  intro fuel
  induction fuel with
  | zero =>
    intro n d hd
    cases n <;> simp [decDigitsAux] at hd
  | succ f ih =>
    intro n d hd
    match n with
    | 0 => simp [decDigitsAux] at hd
    | m + 1 =>
      simp only [decDigitsAux, List.mem_cons] at hd
      rcases hd with h | h
      · omega
      · exact ih _ d h

/-- `"{}".format(i)` for a nonnegative integer: its decimal rendering. -/
def pyFormat (n : Nat) : String :=
  if n = 0 then "0" else String.mk ((decDigits n).reverse.map decDigitChar)

theorem decDigitChar_inj :
    ∀ a < 10, ∀ b < 10, decDigitChar a = decDigitChar b → a = b := by
  decide

theorem map_decDigitChar_inj :
    ∀ l₁ l₂ : List Nat, (∀ d ∈ l₁, d < 10) → (∀ d ∈ l₂, d < 10) →
      l₁.map decDigitChar = l₂.map decDigitChar → l₁ = l₂ := by
  intro l₁
  induction l₁ with
  | nil =>
    intro l₂ _ _ h
    cases l₂ with
    | nil => rfl
    | cons b bs => simp at h
  | cons a as ih =>
    intro l₂ h₁ h₂ h
    cases l₂ with
    | nil => simp at h
    | cons b bs =>
      simp only [List.map_cons, List.cons.injEq] at h
      have ha : a = b := decDigitChar_inj a (h₁ a (by simp)) b (h₂ b (by simp)) h.1
      have has : as = bs :=
        ih bs (fun d hd => h₁ d (by simp [hd])) (fun d hd => h₂ d (by simp [hd])) h.2
      rw [ha, has]

theorem pyFormat_inj (m n : Nat) (h : pyFormat m = pyFormat n) : m = n := by
  have key : ∀ k : Nat, k ≠ 0 → pyFormat k = "0" → False := by
    intro k hk heq
    rw [pyFormat, if_neg hk] at heq
    have hdata : (decDigits k).reverse.map decDigitChar = ['0'] :=
      congrArg String.data heq
    have : (decDigits k).reverse = [0] := by
      apply map_decDigitChar_inj
      · intro d hd
        exact decDigitsAux_lt_ten k k d (List.mem_reverse.mp hd)
      · intro d hd
        simp at hd
        omega
      · simpa [decDigitChar] using hdata
    have hdig : decDigits k = [0] := by
      have := congrArg List.reverse this
      simpa using this
    have := decVal_decDigits k
    rw [hdig] at this
    simp [decVal] at this
    exact hk this.symm
  by_cases hm : m = 0 <;> by_cases hn : n = 0
  · omega
  · exact absurd (key n hn (by rw [← h, pyFormat, if_pos hm])) id
  · exact absurd (key m hm (by rw [h, pyFormat, if_pos hn])) id
  · rw [pyFormat, if_neg hm, pyFormat, if_neg hn] at h
    have hdata := congrArg String.data h
    simp only at hdata
    have hrev : (decDigits m).reverse = (decDigits n).reverse := by
      apply map_decDigitChar_inj _ _ _ _ hdata
      · intro d hd
        exact decDigitsAux_lt_ten m m d (List.mem_reverse.mp hd)
      · intro d hd
        exact decDigitsAux_lt_ten n n d (List.mem_reverse.mp hd)
    have hdig : decDigits m = decDigits n := by
      have := congrArg List.reverse hrev
      simpa using this
    have h1 := decVal_decDigits m
    rw [hdig, decVal_decDigits n] at h1
    exact h1.symm

/-! ## Filenames: `os.path.splitext` and the glob pattern of the merge -/

/-- Index of the last occurrence of a character in a list. -/
def lastIdxOf (c : Char) : List Char → Option Nat
  | [] => none
  | a :: as =>
    match lastIdxOf c as with
    | some i => some (i + 1)
    | none => if a = c then some 0 else none

/-- The position at which `os.path.splitext` cuts: the last dot of the
final path component, provided some non-dot character of the basename
stands before it (leading dots of the basename do not start an
extension); otherwise the end of the string. -/
def splitextPos (p : String) : Nat :=
  let l := p.data
  let sepIdx : Int := match lastIdxOf '/' l with | none => -1 | some i => (i : Int)
  let dotIdx : Int := match lastIdxOf '.' l with | none => -1 | some i => (i : Int)
  if sepIdx < dotIdx ∧
      (((l.take dotIdx.toNat).drop (sepIdx + 1).toNat).any (fun ch => ch != '.')) = true
  then dotIdx.toNat
  else l.length

/-- `os.path.splitext(p)`. -/
def splitext (p : String) : String × String :=
  (String.mk (p.data.take (splitextPos p)), String.mk (p.data.drop (splitextPos p)))

theorem splitext_append (p : String) : (splitext p).1 ++ (splitext p).2 = p := by
  show String.mk (p.data.take (splitextPos p) ++ p.data.drop (splitextPos p)) = p
  rw [List.take_append_drop]

/-- Filename match for the glob pattern `base + "-*" + ext` (source line
133): the name starts with `base ++ "-"`, ends with `ext`, the two parts do
not overlap, and the wildcard-matched middle contains no path separator. -/
def matchesGlobDashStar (base ext fn : String) : Bool :=
  let l := fn.data
  let p := base.data ++ ['-']
  let e := ext.data
  decide (p.length + e.length ≤ l.length) &&
  (l.take p.length == p) &&
  (l.drop (l.length - e.length) == e) &&
  ((l.drop p.length).take (l.length - p.length - e.length)).all (fun ch => ch != '/')

/-- The compound monthly file `base ++ ext` itself never matches the
partial-file pattern `base + "-*" + ext`: it is one character too short. -/
theorem matchesGlobDashStar_self_false (base ext : String) :
    matchesGlobDashStar base ext (base ++ ext) = false := by
  have hlen : (base ++ ext).data.length = base.data.length + ext.data.length := by
    show (base.data ++ ext.data).length = _
    simp
  rw [matchesGlobDashStar]
  have : ¬((base.data ++ ['-']).length + ext.data.length ≤ (base ++ ext).data.length) := by
    rw [hlen]
    simp
  simp only [decide_eq_false this, Bool.false_and]

/-! ## Collaborator tables and the `Cutout` object -/

/-- Table of extraction functions (the per-dataset `prepare_func`
collaborators): each is a pure function of its kwargs dict, returning
`None` or a list of `(yearmonth, dataset)` pairs, or raising. -/
structure FuncTable where
  name : Nat → String
  call : Nat → PyDict → Except Exc (Option (List (YM × Dataset)))

/-- Table of task-generating functions (the per-series `tasks_func`
collaborators): called with the spatial axes, the year-month index, and
the remaining series kwargs; returns a list of task-descriptor dicts. -/
structure TasksTable where
  call : Nat → List Int → List Int → List YM → PyDict → List PyDict

/-- One entry of `weather_data_config`: the task-generating function and
the series' remaining keyword parameters. -/
structure SeriesCfg where
  tasks_func : Nat
  params : PyDict

/-- The dataset returned by a metadata-preparation collaborator: its time
coordinate values (in hours) and its attributes. -/
structure MetaDS where
  timeVals : List Int
  attrs : List (String × String)

/-- `cutout.meta_data_config`: the dataset-specific metadata-preparation
function and its keyword defaults. -/
structure MetaCfg where
  prepare_func : List Int → List Int → Nat → Nat → List (String × String) → MetaDS
  params : List (String × String)

/-- Modelled from the spec: the `Cutout` object is defined outside this
module (only consumed here).  Per the spec it carries a name, a directory
path, the spatial axes and the compound `year-month` index, a `prepared`
flag, the series configuration mapping, shared metadata attributes, an
optional static height field, and the canonical on-disk naming scheme
(one primary metadata file; one compound monthly file per year-month). -/
structure Cutout where
  name : String
  cutout_dir : String
  xs : List Int
  ys : List Int
  yearmonths : List YM
  prepared : Bool
  weather_data_config : List (String × SeriesCfg)
  meta_attrs : List (String × String)
  metaHeight : Option (String × String) := none  -- height field: source file, method
  datasetfnMeta : String                          -- cutout.datasetfn()
  datasetfnYM : YM → String                       -- cutout.datasetfn(ym)
  meta_data_config : MetaCfg

/-! ## The task executor: `cutout_do_task` (source lines 39-72) -/

/-- The result of one `cutout_do_task` run: the returned value (or the
raised exception), the dict heap, and the world. -/
structure DoTaskOut where
  ret : Except Exc (Option (List (YM × Dataset)))
  heap : DictHeap
  w : World

/-- One iteration of the write loop of `cutout_do_task` (source lines
55-63): `fn = datasetfns[yearmonth]; ds.to_netcdf(fn)` plus the debug
trace record. -/
def writeOne (pfName : String) (dfns : PyVal) (ym : YM) (ds : Dataset)
    (w : World) : Except Exc World :=
  match dfns with
  | .fnsMap m =>
    match alGet m ym with
    | some fn =>
      .ok { w with fs := w.fs.writeFile fn ds,
                   events := w.events ++ [.wroteFile fn ds.varNames pfName] }
    | none => .error ⟨"KeyError", [pyFormat ym.1 ++ "-" ++ pyFormat ym.2]⟩
  | _ => .error ⟨"TypeError", ["datasetfns is not a mapping"]⟩

/-- The write loop of `cutout_do_task` (source lines 55-63): persist each
`(yearmonth, ds)` pair to its designated output file. -/
def writeResults (pfName : String) (dfns : PyVal) :
    List (YM × Dataset) → World → Except Exc Unit × World
  | [], w => (.ok (), w)
  | (ym, ds) :: rest, w =>
    match writeOne pfName dfns ym ds w with
    | .error e => (.error e, w)
    | .ok w' => writeResults pfName dfns rest w'

/-- The `if 'fn' in task` block of the `try` clause (source lines 46-49):
pop the input path and engine and inject the opened dataset under the
reserved key `ds`.  `xr.open_dataset` is modelled as always succeeding
with a fresh handle. -/
def openInput (task : PyDict) (w : World) : Except Exc Unit × PyDict × World :=
  match alGet task "fn" with
  | none => (.ok (), task, w)
  | some fnv =>
    let task := alErase task "fn"
    match alGet task "engine" with
    | none => (.error ⟨"KeyError", ["engine"]⟩, task, w)
    | some env =>
      let task := alErase task "engine"
      match fnv, env with
      | .str f, .str en =>
        let h := w.nextHandle
        (.ok (), alSet task "ds" (.dsh h),
         { w with events := w.events ++ [.openedDS f en h],
                  nextHandle := h + 1,
                  openHandles := w.openHandles ++ [h] })
      | _, _ => (.error ⟨"TypeError", ["invalid path or engine"]⟩, task, w)

/-- `data = prepare_func(**task)` and the write-or-return step (source
lines 50-65).  The call of the extraction function is recorded in the
trace together with the exact kwargs dict it receives; a `None` result
becomes the empty result list. -/
def runPrep (ft : FuncTable) (pf : PyVal) (pfName : String) (dfns : Option PyVal)
    (write_to_file : Bool) (task : PyDict) (w : World) :
    Except Exc (Option (List (YM × Dataset))) × PyDict × World :=
  match pf with
  | .func fid =>
    let w := { w with events := w.events ++ [.calledPrep fid task] }
    match ft.call fid task with
    | .error e => (.error e, task, w)
    | .ok dataOpt =>
      let data := dataOpt.getD []
      if write_to_file then
        match writeResults pfName (dfns.getD (.str "")) data w with
        | (.error e, w) => (.error e, task, w)
        | (.ok _, w) => (.ok none, task, w)  -- falls through: returns None
      else (.ok (some (data.map (fun q => (q.1, q.2.load)))), task, w)
  -- any non-callable value popped from 'prepare_func' (cases spelt out)
  | .str s => (.error ⟨"TypeError", ["prepare_func is not callable"]⟩, task, w)
  | .num n => (.error ⟨"TypeError", ["prepare_func is not callable"]⟩, task, w)
  | .dsh h => (.error ⟨"TypeError", ["prepare_func is not callable"]⟩, task, w)
  | .fnsMap m => (.error ⟨"TypeError", ["prepare_func is not callable"]⟩, task, w)
  | .attrsV a => (.error ⟨"TypeError", ["prepare_func is not callable"]⟩, task, w)

/-- The whole `try` block (source lines 45-65). -/
def tryBody (ft : FuncTable) (pf : PyVal) (pfName : String) (dfns : Option PyVal)
    (write_to_file : Bool) (task : PyDict) (w : World) :
    Except Exc (Option (List (YM × Dataset))) × PyDict × World :=
  match openInput task w with
  | (.error e, task, w) => (.error e, task, w)
  | (.ok _, task, w) => runPrep ft pf pfName dfns write_to_file task w

/-- The `except Exception` clause (source lines 66-69):
`logger.exception(..., prepare_func.__name__, e.args[0]); raise e`.
With an empty args tuple, evaluating `e.args[0]` raises `IndexError`
inside the handler, and that IndexError propagates instead of `e`. -/
def exceptClause (pfName : String)
    (res : Except Exc (Option (List (YM × Dataset)))) (w : World) :
    Except Exc (Option (List (YM × Dataset))) × World :=
  match res with
  | .ok v => (.ok v, w)
  | .error e =>
    match e.args with
    | [] => (.error ⟨"IndexError", ["tuple index out of range"]⟩, w)
    | a0 :: _ => (.error e, { w with events := w.events ++ [.logExc pfName a0] })

/-- The `finally` clause (source lines 70-72): close the injected
dataset whenever the working dict holds the key `ds`.  A `finally` that
raises (`.close()` on a non-dataset value) replaces the in-flight
result. -/
def finallyClose (task : PyDict)
    (res : Except Exc (Option (List (YM × Dataset)))) (w : World) :
    Except Exc (Option (List (YM × Dataset))) × World :=
  match alGet task "ds" with
  | some (.dsh h) =>
    (res, { w with events := w.events ++ [.closedDS h],
                   openHandles := w.openHandles.erase h })
  | some _ => (.error ⟨"AttributeError", ["close"]⟩, w)
  | none => (res, w)

/-- The body of `cutout_do_task` (source lines 40-72) acting on the
working copy of the task dict.  The copy is single-threaded through the
function, so its in-place mutation (`task.pop`, `task['ds'] = ...`) is
value threading; the final state of the copy is also returned. -/
def do_task_core (ft : FuncTable) (write_to_file : Bool) (task : PyDict)
    (w : World) : Except Exc (Option (List (YM × Dataset))) × PyDict × World :=
  -- prepare_func = task.pop('prepare_func')      (before the try block)
  match alGet task "prepare_func" with
  | none => (.error ⟨"KeyError", ["prepare_func"]⟩, task, w)
  | some pf =>
    let task := alErase task "prepare_func"
    let pfName := match pf with | .func fid => ft.name fid | _ => "<not callable>"
    -- if write_to_file: datasetfns = task.pop('datasetfns')   (before the try block)
    let popd : Except Exc (Option PyVal × PyDict) :=
      if write_to_file then
        match alGet task "datasetfns" with
        | none => .error ⟨"KeyError", ["datasetfns"]⟩
        | some v => .ok (some v, alErase task "datasetfns")
      else .ok (none, task)
    match popd with
    | .error e => (.error e, task, w)
    | .ok (dfns, task) =>
      let t := tryBody ft pf pfName dfns write_to_file task w
      let er := exceptClause pfName t.1 t.2.2
      let fin := finallyClose t.2.1 er.1 er.2
      (fin.1, t.2.1, fin.2)

/-- `cutout_do_task` (source lines 39-72), acting on a reference to the
caller's task-descriptor dict.  The first action is `task = task.copy()`:
a fresh dict is allocated and every destructive operation acts on that
copy, whose final state is written back to its own cell -- never to the
caller's. -/
def cutout_do_task (ft : FuncTable) (taskRef : Nat) (write_to_file : Bool)
    (heap : DictHeap) (w : World) : DoTaskOut :=
  let al := heap.alloc (heap.get taskRef)
  let c := do_task_core ft write_to_file (al.1.get al.2) w
  ⟨c.1, al.1.set al.2 c.2.1, c.2.2⟩

/-! ## Height preparation: `_prepare_gebco_height` (source lines 207-237) -/

/-- The external collaborators of the height preparation: the outcome of
invoking `gdalwarp` (`none` models `OSError` — the tool is absent;
`some ret` models a completed run with exit code `ret`) and the
module-level `gebco_path` configuration. -/
structure GebcoEnv where
  gdalwarpCall : Option Int
  gebco_path : String

/-- `_prepare_gebco_height`.  The float bounding-box arithmetic feeding
gdalwarp's command line is consumed opaquely by the external tool and not
modelled; what is modelled is the control flow and which raster the
height is interpolated from.  The returned height field records
(source raster, interpolation method).  Note `assert ret == 0` raises
`AssertionError`, which the `except OSError` clause does not catch. -/
def prepare_gebco_height (env : GebcoEnv) (xs ys : List Int) (w : World) :
    Except Exc (String × String) × World :=
  let tmpfn := "/tmp/atlite-gebco/resampled.nc"
  match env.gdalwarpCall with
  | some ret =>
    if ret = 0 then
      -- resampled raster opened, renamed and reindexed with method='nearest'
      (.ok (tmpfn, "nearest"), w)
    else
      (.error ⟨"AssertionError", ["gdalwarp was not able to resample gebco"]⟩, w)
  | none =>
    -- OSError caught: warn once and fall back to the original raster
    (.ok (env.gebco_path, "nearest"),
     { w with events := w.events ++ [.warnGdal] })

/-! ## The orchestrator: `cutout_prepare` (source lines 74-145) -/

/-- The closure `datasetfn_with_id` (source lines 106-108): insert the
`-{i}` disambiguation suffix before the extension of the cutout's
canonical per-month filename. -/
def datasetfn_with_id (cutout : Cutout) (i : Nat) (ym : YM) : String :=
  let p := splitext (cutout.datasetfnYM ym)
  p.1 ++ "-" ++ pyFormat i ++ p.2

/-- Task expansion (source lines 99-104): for every configured series,
copy its descriptor, inject the shared metadata attributes, pop the
task-generating function and call it with the axes and the year-month
index; concatenate all task lists. -/
def prepareBuildTasks (tt : TasksTable) (cutout : Cutout) : List PyDict :=
  cutout.weather_data_config.flatMap
    (fun s => tt.call s.2.tasks_func cutout.xs cutout.ys cutout.yearmonths
                (alSet s.2.params "meta_attrs" (.attrsV cutout.meta_attrs)))

/-- Output-name injection (source lines 105-109), together with placing
each task dict on the heap so the pool hands the executor a reference:
the task at position `i` gets the mapping
`{ym: datasetfn_with_id(i, ym) for ym in yearmonths}`. -/
def prepareAllocInject (cutout : Cutout) :
    List PyDict → Nat → DictHeap → DictHeap × List Nat
  | [], _, heap => (heap, [])
  | t :: ts, i, heap =>
    let a := heap.alloc
      (alSet t "datasetfns"
        (.fnsMap (cutout.yearmonths.map (fun ym => (ym, datasetfn_with_id cutout i ym)))))
    let rest := prepareAllocInject cutout ts (i + 1) a.1
    (rest.1, a.2 :: rest.2)

/-- `pool.map(cutout_do_task, tasks)` (source line 119): execute the
tasks; the first raised exception stops the run — the orchestrator then
terminates the pool, so no task after the failing one executes. -/
def poolMap (ft : FuncTable) : List Nat → DictHeap → World →
    Except Exc Unit × DictHeap × World
  | [], heap, w => (.ok (), heap, w)
  | r :: rs, heap, w =>
    let o := cutout_do_task ft r true heap w
    match o.ret with
    | .error e => (.error e, o.heap, o.w)
    | .ok _ => poolMap ft rs o.heap o.w

/-- `cutout.meta.unstack('year-month').to_netcdf(cutout.datasetfn())`
(source line 96): the metadata skeleton file, opaque to the claims. -/
def metaDataset (_cutout : Cutout) : Dataset :=
  ⟨[("meta", .num 0)], false⟩

/-- One iteration of the merge loop (source lines 131-142): glob the
month's partial files (`base + "-*" + ext`), open them jointly as one
combined dataset (the union of their variables), overlay the static
height field when height computation was requested, write the compound
monthly file, then delete every merged partial. -/
def mergeMonth (cutout : Cutout) (gebco_height : Bool) (fs : FS) (ym : YM) :
    Except Exc FS :=
  let fn := cutout.datasetfnYM ym
  let p := splitext fn
  let fns := (fs.files.map (·.1)).filter (matchesGlobDashStar p.1 p.2)
  -- xr.open_mfdataset([]) raises
  if fns.isEmpty then .error ⟨"OSError", ["no files to open"]⟩
  else
    let merged : Dataset :=
      ⟨(fns.filterMap (fun f => fs.lookupFile f)).flatMap (·.vars), false⟩
    let withHeight : Except Exc Dataset :=
      if gebco_height then
        -- ds['height'] = cutout.meta['height']
        match cutout.metaHeight with
        | some hf => .ok ⟨alSet merged.vars "height" (.hgt hf.1 hf.2), merged.loaded⟩
        | none => .error ⟨"KeyError", ["height"]⟩
      else .ok merged
    match withHeight with
    | .error e => .error e
    | .ok ds =>
      let fs := fs.writeFile fn ds
      .ok (fns.foldl (fun acc f => acc.unlink f) fs)

/-- The merge stage (source lines 131-142): months processed
independently and in sequence; a failure stops the loop and is not
wrapped in the abort-and-purge transaction. -/
def mergeStage (cutout : Cutout) (gebco_height : Bool) :
    List YM → FS → Except Exc Unit × FS
  | [], fs => (.ok (), fs)
  | ym :: yms, fs =>
    match mergeMonth cutout gebco_height fs ym with
    | .error e => (.error e, fs)
    | .ok fs' => mergeStage cutout gebco_height yms fs'

/-- The optional height pre-step of `cutout_prepare` (source lines
86-88): `cutout.meta['height'] = _prepare_gebco_height(xs, ys)` when
height computation is requested. -/
def prepareHeights (env : GebcoEnv) (cutout : Cutout) (gebco_height : Bool)
    (w : World) : Except Exc Cutout × World :=
  if gebco_height then
    match prepare_gebco_height env cutout.xs cutout.ys w with
    | (.error e, w') => (.error e, w')
    | (.ok hf, w') => (.ok { cutout with metaHeight := some hf }, w')
  else (.ok cutout, w)

/-- The destructive directory reset of `cutout_prepare` (source lines
90-96): delete `cutout_dir` if it exists, recreate it, and write the
metadata skeleton file. -/
def prepareResetFS (cutout : Cutout) (fs : FS) : FS :=
  ((if fs.isdir cutout.cutout_dir then fs.rmtree cutout.cutout_dir else fs).mkdir
      cutout.cutout_dir).writeFile cutout.datasetfnMeta (metaDataset cutout)

/-- `cutout_prepare` (source lines 74-145).  Note on the precondition
check: the source raises `ArgumentError`, a name that is neither defined
in the module nor imported, so evaluating line 76 actually raises
`NameError`.  The worker count `nprocesses` does not change the
observable behaviour in this sequential model of the pool. -/
def cutout_prepare (env : GebcoEnv) (ft : FuncTable) (tt : TasksTable)
    (cutout : Cutout) (overwrite : Bool) (nprocesses : Option Nat)
    (gebco_height : Bool) (heap : DictHeap) (w : World) :
    Except Exc Unit × Cutout × DictHeap × World :=
  if cutout.prepared && !overwrite then
    (.error ⟨"NameError", ["name 'ArgumentError' is not defined"]⟩, cutout, heap, w)
  else
    match prepareHeights env cutout gebco_height w with
    | (.error e, w) => (.error e, cutout, heap, w)
    | (.ok cutout, w) =>
      let w := { w with fs := prepareResetFS cutout w.fs }
      let tasks := prepareBuildTasks tt cutout
      let ai := prepareAllocInject cutout tasks 0 heap
      match poolMap ft ai.2 ai.1 w with
      | (.error e, heap, w) =>
        -- pool.terminate(); purge the incomplete cutout_dir; raise e
        (.error e, cutout, heap,
         { w with events := w.events ++ [.poolTerminated],
                  fs := w.fs.rmtree cutout.cutout_dir })
      | (.ok _, heap, w) =>
        match mergeStage cutout gebco_height cutout.yearmonths w.fs with
        | (.error e, fs) => (.error e, cutout, heap, { w with fs := fs })
        | (.ok _, fs) =>
          (.ok (), { cutout with prepared := true }, heap, { w with fs := fs })

/-! ## `cutout_produce_specific_dataseries` (source lines 147-158) -/

/-- `cutout_produce_specific_dataseries`: build the series' tasks for the
single requested year-month, assert exactly one task, run it without
writing to file, assert exactly one result for the requested year-month,
and return that dataset. -/
def cutout_produce_specific_dataseries (ft : FuncTable) (tt : TasksTable)
    (cutout : Cutout) (yearmonth : YM) (series_name : String)
    (heap : DictHeap) (w : World) : Except Exc Dataset × DictHeap × World :=
  match alGet cutout.weather_data_config series_name with
  | none => (.error ⟨"KeyError", [series_name]⟩, heap, w)
  | some series =>
    let params := alSet series.params "meta_attrs" (.attrsV cutout.meta_attrs)
    let tasks := tt.call series.tasks_func cutout.xs cutout.ys [yearmonth] params
    -- assert len(tasks) == 1
    match tasks with
    | [t] =>
      let a := heap.alloc t
      let o := cutout_do_task ft a.2 false a.1 w
      match o.ret with
      | .error e => (.error e, o.heap, o.w)
      | .ok dataOpt =>
        match dataOpt with
        | none =>
          -- unreachable: with write_to_file=False the executor returns a list
          (.error ⟨"TypeError", ["object of type NoneType has no len"]⟩, o.heap, o.w)
        | some data =>
          -- assert len(data) == 1 and data[0][0] == yearmonth
          match data with
          | [(ym1, d1)] =>
            if ym1 = yearmonth then (.ok d1, o.heap, o.w)
            else (.error ⟨"AssertionError", []⟩, o.heap, o.w)
          | _ => (.error ⟨"AssertionError", []⟩, o.heap, o.w)
    | _ => (.error ⟨"AssertionError", []⟩, heap, w)

/-! ## The metadata materializer: `cutout_get_meta` (source lines 160-186) -/

/-- Proleptic-Gregorian leap year. -/
def isLeapYear (y : Nat) : Bool := y % 4 == 0 && (y % 100 != 0 || y % 400 == 0)

/-- Days of a month (months numbered 1-12). -/
def monthLen (y m : Nat) : Nat :=
  match m with
  | 1 => 31 | 2 => if isLeapYear y then 29 else 28
  | 3 => 31 | 4 => 30 | 5 => 31 | 6 => 30 | 7 => 31
  | 8 => 31 | 9 => 30 | 10 => 31 | 11 => 30 | 12 => 31
  | _ => 0

/-- Leap years before year `y` (counting from year 0). -/
def leapsBefore (y : Nat) : Nat := (y + 3) / 4 - (y + 99) / 100 + (y + 399) / 400

/-- Days before the start of year `y`. -/
def daysBeforeYear (y : Nat) : Nat := 365 * y + leapsBefore y

/-- Days between the start of year `y` and the start of its month `m`. -/
def daysBeforeMonth (y m : Nat) : Nat :=
  (List.range' 1 (m - 1)).foldl (fun acc mm => acc + monthLen y mm) 0

/-- `pd.Timestamp("{y}-{m}")` in hours since this model's epoch. -/
def monthBegin (y m : Nat) : Int :=
  24 * ((daysBeforeYear y + daysBeforeMonth y m : Nat) : Int)

/-- `month_start + pd.offsets.MonthBegin()`: the begin of the following
month (an anchored offset rolls a month begin forward to the next one). -/
def nextMonthBegin (y m : Nat) : Int :=
  if m = 12 then monthBegin (y + 1) 1 else monthBegin y (m + 1)

/-- `pd.date_range(start, end, freq=f"{step}h")` in hours: the arithmetic
progression from `a` up to at most `b` in steps of `step > 0`. -/
def dateRange (a b step : Int) : List Int :=
  if step ≤ 0 ∨ b < a then []
  else (List.range ((b - a).toNat / step.toNat + 1)).map
    (fun (k : Nat) => a + step * (k : Int))

/-- `(second - start).components.hours`: the hours component — not the
total hours — of a (nonnegative) timedelta measured in hours. -/
def timedeltaHoursComponent (d : Int) : Int := d.emod 24

/-- A Python `slice(start, stop)` as used for the year and month ranges. -/
structure PySlice where
  start : Nat
  stop : Nat

/-- `dict.update`: apply all bindings of `upd` over `d`. -/
def attrsUpdate (d upd : List (String × String)) : List (String × String) :=
  upd.foldl (fun acc p => alSet acc p.1 p.2) d

/-- The outcome of `cutout_get_meta`: which `(year, month)` arguments the
metadata-preparation function was invoked for, and the resulting skeleton
(new time axis, attributes, year/month coordinates, and the stacked
compound `year-month` index). -/
structure MetaResult where
  calls : List (Nat × Nat)
  timeVals : List Int
  attrs : List (String × String)
  years : List Nat
  months : List Nat
  ymIndex : List (Nat × Nat)

/-- `cutout_get_meta` (source lines 160-186): call the dataset-specific
metadata-preparation function for the last month of the range, read the
first, second and last time values of that month, derive the start
offset, end offset and sampling step, and rebuild the time axis as one
`pd.date_range` spanning the whole year/month range; attach the year and
month coordinates and stack them into the compound `year-month` index. -/
def cutout_get_meta (cutout : Cutout) (xs ys : List Int) (years : PySlice)
    (monthsArg : Option PySlice) (dataset_params : List (String × String)) :
    Except Exc MetaResult :=
  let months := monthsArg.getD ⟨1, 12⟩
  let meta_kwds := attrsUpdate cutout.meta_data_config.params dataset_params
  let ds := cutout.meta_data_config.prepare_func xs ys years.stop months.stop meta_kwds
  let dsAttrs := attrsUpdate ds.attrs dataset_params
  -- ds.coords['time'].values[[0, 1, -1]]
  match ds.timeVals with
  | [] => .error ⟨"IndexError", ["index 0 is out of bounds"]⟩
  | [_] => .error ⟨"IndexError", ["index 1 is out of bounds"]⟩
  | t0 :: t1 :: rest =>
    let tlast := (t1 :: rest).getLastD 0
    let month_start := monthBegin years.stop months.stop
    let offset_start := t0 - month_start
    let offset_end := tlast - nextMonthBegin years.stop months.stop
    let step := timedeltaHoursComponent (t1 - t0)
    if step = 0 then .error ⟨"ValueError", ["offset 0h did not increment date"]⟩
    else
      let times := dateRange (monthBegin years.start months.start + offset_start)
                             (nextMonthBegin years.stop months.stop + offset_end) step
      let yearsL := List.range' years.start (years.stop + 1 - years.start)
      let monthsL := List.range' months.start (months.stop + 1 - months.start)
      .ok ⟨[(years.stop, months.stop)], times, dsAttrs, yearsL, monthsL,
           yearsL.flatMap (fun y => monthsL.map (fun m => (y, m)))⟩

/-! ## Shared concrete fixtures for witnesses and counterexamples -/

/-- An extraction-function table whose single function returns `None`. -/
def ftNone : FuncTable := ⟨fun _ => "prep_none", fun _ _ => .ok none⟩

/-- An empty world: empty filesystem, no events, no open handles. -/
def w0 : World := ⟨⟨[], []⟩, [], 0, []⟩

/-- A one-cell heap holding a minimal task descriptor. -/
def heap1 : DictHeap := ⟨[[("prepare_func", .func 0), ("datasetfns", .fnsMap [])]]⟩

/-- A trivial metadata configuration. -/
def mcfg0 : MetaCfg := ⟨fun _ _ _ _ _ => ⟨[], []⟩, []⟩

/-- A minimal already-prepared cutout with no configured series. -/
def cutPrepared : Cutout :=
  { name := "c0", cutout_dir := "/data/c0", xs := [], ys := [], yearmonths := [],
    prepared := true, weather_data_config := [], meta_attrs := [],
    datasetfnMeta := "/data/c0/meta.nc",
    datasetfnYM := fun ym => "/data/c0/" ++ pyFormat ym.1 ++ pyFormat ym.2 ++ ".nc",
    meta_data_config := mcfg0 }

/-! ## Claim C10: the executor never mutates the caller's descriptor -/

/-- C10: for every input task mapping, `cutout_do_task` leaves the
caller's dict unchanged — every destructive operation (the pops of
`prepare_func`, `datasetfns`, `fn`, `engine` and the insertion of `ds`)
acts on the shallow copy made on entry, so whether the call returns or
raises, the caller's descriptor still holds exactly the entries it held
before. -/
theorem cutout_do_task_frames_caller (ft : FuncTable) (taskRef : Nat)
    (write_to_file : Bool) (heap : DictHeap) (w : World)
    (href : taskRef < heap.cells.length) :
    (cutout_do_task ft taskRef write_to_file heap w).heap.get taskRef
      = heap.get taskRef := by
  have hne : taskRef ≠ (heap.alloc (heap.get taskRef)).2 := by
    simp only [DictHeap.alloc]
    omega
  simp only [cutout_do_task]
  rw [DictHeap.get_set_ne _ _ _ _ hne, DictHeap.get_alloc_old _ _ _ href]

theorem cutout_do_task_frames_caller_witness :
    0 < heap1.cells.length ∧
    (cutout_do_task ftNone 0 true heap1 w0).heap.get 0 = heap1.get 0 :=
  ⟨by decide, cutout_do_task_frames_caller ftNone 0 true heap1 w0 (by decide)⟩

/-! ## Claim C5: the already-prepared precondition check -/

/-- C5 (code bug): with `prepared` true and `overwrite` false,
`cutout_prepare` fails immediately with no side effects — but the raised
exception is `NameError`, because line 76 raises `ArgumentError`, a name
that is neither a Python builtin nor defined or imported by the module.
The intended configuration error (with its explanatory message) is never
constructed.  This theorem evaluates the embedding at such an input: the
result is a `NameError` and the cutout, heap and world are returned
untouched (no height computation, no directory deletion or creation, no
metadata write, no task execution). -/
theorem cutout_prepare_already_prepared_nameerror :
    cutout_prepare ⟨some 0, "gebco.nc"⟩ ftNone ⟨fun _ _ _ _ _ => []⟩ cutPrepared
        false none false ⟨[]⟩ w0
      = (.error ⟨"NameError", ["name 'ArgumentError' is not defined"]⟩,
         cutPrepared, ⟨[]⟩, w0) := rfl

/-! ## Claim C8: the external resampling tool contract -/

/-- C8: if `gdalwarp` cannot be invoked (`OSError`), height preparation
emits the degraded-mode warning exactly once, completes without raising,
and computes the height by nearest-neighbour reindexing of the original
`gebco_path` raster; if the tool runs but exits non-zero, the
`assert ret == 0` raises an `AssertionError` (not caught by
`except OSError`) and the computation is fatal. -/
theorem prepare_gebco_height_tool_contract (env : GebcoEnv) (xs ys : List Int)
    (w : World) :
    (env.gdalwarpCall = none →
      prepare_gebco_height env xs ys w
        = (.ok (env.gebco_path, "nearest"),
           { w with events := w.events ++ [.warnGdal] }))
    ∧ (∀ r : Int, env.gdalwarpCall = some r → r ≠ 0 →
      prepare_gebco_height env xs ys w
        = (.error ⟨"AssertionError", ["gdalwarp was not able to resample gebco"]⟩,
           w)) := by
  constructor
  · intro h
    simp [prepare_gebco_height, h]
  · intro r h hr
    simp [prepare_gebco_height, h, hr]

theorem prepare_gebco_height_tool_contract_witness :
    (⟨none, "g.nc"⟩ : GebcoEnv).gdalwarpCall = none ∧
    prepare_gebco_height ⟨none, "g.nc"⟩ [] [] w0
      = (.ok ("g.nc", "nearest"), { w0 with events := w0.events ++ [.warnGdal] }) ∧
    (⟨some 1, "g.nc"⟩ : GebcoEnv).gdalwarpCall = some 1 ∧ (1 : Int) ≠ 0 ∧
    prepare_gebco_height ⟨some 1, "g.nc"⟩ [] [] w0
      = (.error ⟨"AssertionError", ["gdalwarp was not able to resample gebco"]⟩, w0) :=
  ⟨rfl,
   (prepare_gebco_height_tool_contract ⟨none, "g.nc"⟩ [] [] w0).1 rfl,
   rfl, by decide,
   (prepare_gebco_height_tool_contract ⟨some 1, "g.nc"⟩ [] [] w0).2 1 rfl (by decide)⟩

/-! ## Claim C4: logging and re-raising of extraction failures -/

/-- An extraction-function table whose single function raises an
exception with an empty args tuple. -/
def ftEmptyArgs : FuncTable := ⟨fun _ => "prep_fail", fun _ _ => .error ⟨"Exception", []⟩⟩

/-- C4 counterexample: when the extraction function raises an exception
whose args tuple is empty, evaluating `e.args[0]` in the logging call of
the `except` clause raises `IndexError`, so the caller receives an
`IndexError` — not the original exception object — and no log record with
the function's name and a first argument is emitted (the trace holds only
the call record). -/
theorem do_task_empty_args_counterexample :
    (cutout_do_task ftEmptyArgs 0 true heap1 w0).ret
        = .error ⟨"IndexError", ["tuple index out of range"]⟩ ∧
    (cutout_do_task ftEmptyArgs 0 true heap1 w0).w.events
        = [Event.calledPrep 0 []] ∧
    (⟨"IndexError", ["tuple index out of range"]⟩ : Exc) ≠ ⟨"Exception", []⟩ := by
  refine ⟨rfl, rfl, by decide⟩

theorem writeOne_events (pfName : String) (dfns : PyVal) (ym : YM) (ds : Dataset)
    (w w' : World) (h : writeOne pfName dfns ym ds w = .ok w') :
    ∃ ev, w'.events = w.events ++ [ev] := by
  cases dfns <;> simp only [writeOne] at h <;> try cases h
  case fnsMap m =>
    cases hm : alGet m ym with
    | none =>
      rw [hm] at h
      cases h
    | some fn =>
      rw [hm] at h
      simp only [Except.ok.injEq] at h
      subst h
      exact ⟨Event.wroteFile fn ds.varNames pfName, rfl⟩

theorem writeResults_events :
    ∀ (data : List (YM × Dataset)) (pfName : String) (dfns : PyVal) (w : World),
    ∃ evs, ((writeResults pfName dfns data w).2).events = w.events ++ evs := by
  intro data
  induction data with
  | nil =>
    intro pfName dfns w
    exact ⟨[], by simp [writeResults]⟩
  | cons p ps ih =>
    intro pfName dfns w
    obtain ⟨ym, ds⟩ := p
    rw [writeResults]
    cases hw : writeOne pfName dfns ym ds w with
    | error e => exact ⟨[], by simp⟩
    | ok w' =>
      obtain ⟨ev, hev⟩ := writeOne_events _ _ _ _ _ _ hw
      obtain ⟨evs, hevs⟩ := ih pfName dfns w'
      exact ⟨ev :: evs, by rw [hevs, hev]; simp⟩

/-- C4 (amended): for every exception raised by the extraction function
whose args tuple is non-empty — whether or not the task descriptor
specifies an input file and engine — the executor logs the extraction
function's name together with the first exception argument and re-raises
the same exception object unchanged to the caller.  (When the args tuple
is empty, evaluating `e.args[0]` in the logging call itself raises an
`IndexError` which replaces the original exception — see the
counterexample.) -/
theorem do_task_logs_and_reraises (ft : FuncTable) (taskRef : Nat)
    (write_to_file : Bool) (heap : DictHeap) (w : World)
    (fid : Nat) (e : Exc) (a0 : String) (rest : List String)
    (hpf : alGet (heap.get taskRef) "prepare_func" = some (.func fid))
    (hfn : (alGet (heap.get taskRef) "fn" = none ∧
            alGet (heap.get taskRef) "ds" = none) ∨
           (∃ f en, alGet (heap.get taskRef) "fn" = some (.str f) ∧
            alGet (heap.get taskRef) "engine" = some (.str en)))
    (hdfns : write_to_file = true →
      ∃ v, alGet (heap.get taskRef) "datasetfns" = some v)
    (hcall : ∀ d, ft.call fid d = .error e)
    (hargs : e.args = a0 :: rest) :
    (cutout_do_task ft taskRef write_to_file heap w).ret = .error e ∧
    Event.logExc (ft.name fid) a0
      ∈ (cutout_do_task ft taskRef write_to_file heap w).w.events := by
  simp only [cutout_do_task, DictHeap.get_alloc_new]
  generalize hd : heap.get taskRef = d at hpf hfn hdfns
  rcases hfn with ⟨hfn, hds⟩ | ⟨f, en, hfn, hen⟩
  · -- the descriptor has no input file
    have e2 : alGet (alErase d "prepare_func") "fn" = none := by
      rw [alGet_alErase_ne _ _ _ (by decide)]
      exact hfn
    have e4 : alGet (alErase d "prepare_func") "ds" = none := by
      rw [alGet_alErase_ne _ _ _ (by decide)]
      exact hds
    cases write_to_file with
    | false =>
      simp [do_task_core, tryBody, openInput, runPrep, exceptClause, finallyClose,
        hpf, e2, e4, hcall, hargs]
    | true =>
      obtain ⟨v, hv⟩ := hdfns rfl
      have e1 : alGet (alErase d "prepare_func") "datasetfns" = some v := by
        rw [alGet_alErase_ne _ _ _ (by decide)]
        exact hv
      have e3 : alGet (alErase (alErase d "prepare_func") "datasetfns") "fn" = none := by
        rw [alGet_alErase_ne _ _ _ (by decide)]
        exact e2
      have e5 : alGet (alErase (alErase d "prepare_func") "datasetfns") "ds" = none := by
        rw [alGet_alErase_ne _ _ _ (by decide)]
        exact e4
      simp [do_task_core, tryBody, openInput, runPrep, exceptClause, finallyClose,
        hpf, e1, e3, e5, hcall, hargs]
  · -- the descriptor specifies an input file and engine
    cases write_to_file with
    | false =>
      have h1 : alGet (alErase d "prepare_func") "fn" = some (.str f) := by
        rw [alGet_alErase_ne _ _ _ (by decide)]
        exact hfn
      have h2 : alGet (alErase (alErase d "prepare_func") "fn") "engine"
          = some (.str en) := by
        rw [alGet_alErase_ne _ _ _ (by decide), alGet_alErase_ne _ _ _ (by decide)]
        exact hen
      simp [do_task_core, tryBody, openInput, runPrep, exceptClause, finallyClose,
        hpf, h1, h2, hcall, hargs]
    | true =>
      obtain ⟨v, hv⟩ := hdfns rfl
      have h0 : alGet (alErase d "prepare_func") "datasetfns" = some v := by
        rw [alGet_alErase_ne _ _ _ (by decide)]
        exact hv
      have h1 : alGet (alErase (alErase d "prepare_func") "datasetfns") "fn"
          = some (.str f) := by
        rw [alGet_alErase_ne _ _ _ (by decide), alGet_alErase_ne _ _ _ (by decide)]
        exact hfn
      have h2 : alGet (alErase (alErase (alErase d "prepare_func") "datasetfns")
          "fn") "engine" = some (.str en) := by
        rw [alGet_alErase_ne _ _ _ (by decide), alGet_alErase_ne _ _ _ (by decide),
            alGet_alErase_ne _ _ _ (by decide)]
        exact hen
      simp [do_task_core, tryBody, openInput, runPrep, exceptClause, finallyClose,
        hpf, h0, h1, h2, hcall, hargs]

/-- An extraction-function table whose single function raises
`ValueError("bad data")`. -/
def ftValueError : FuncTable :=
  ⟨fun _ => "prep_fail2", fun _ _ => .error ⟨"ValueError", ["bad data"]⟩⟩

/-- A one-cell heap whose descriptor specifies an input file and engine. -/
def heapFn : DictHeap :=
  ⟨[[("prepare_func", .func 0), ("fn", .str "in.nc"), ("engine", .str "netcdf4"),
     ("datasetfns", .fnsMap [])]]⟩

theorem do_task_logs_and_reraises_witness :
    (∀ d, ftValueError.call 0 d = .error ⟨"ValueError", ["bad data"]⟩) ∧
    ((cutout_do_task ftValueError 0 true heap1 w0).ret
        = .error ⟨"ValueError", ["bad data"]⟩ ∧
     Event.logExc (ftValueError.name 0) "bad data"
        ∈ (cutout_do_task ftValueError 0 true heap1 w0).w.events) ∧
    ((cutout_do_task ftValueError 0 true heapFn w0).ret
        = .error ⟨"ValueError", ["bad data"]⟩ ∧
     Event.logExc (ftValueError.name 0) "bad data"
        ∈ (cutout_do_task ftValueError 0 true heapFn w0).w.events) :=
  ⟨fun _ => rfl,
   do_task_logs_and_reraises ftValueError 0 true heap1 w0 0
     ⟨"ValueError", ["bad data"]⟩ "bad data" [] rfl (Or.inl ⟨rfl, rfl⟩)
     (fun _ => ⟨.fnsMap [], rfl⟩) (fun _ => rfl) rfl,
   do_task_logs_and_reraises ftValueError 0 true heapFn w0 0
     ⟨"ValueError", ["bad data"]⟩ "bad data" [] rfl
     (Or.inr ⟨"in.nc", "netcdf4", rfl, rfl⟩)
     (fun _ => ⟨.fnsMap [], rfl⟩) (fun _ => rfl) rfl⟩

/-! ## Claim C3: open / inject / close contract of the executor -/

/-- C3: for every task descriptor specifying an input file and engine,
`cutout_do_task` opens that dataset (receiving the fresh handle
`w.nextHandle`), injects it into the extraction function's kwargs under
the reserved key `ds`, and closes it on every exit path: the trace always
reads open, then the extraction call (and whatever it writes or logs),
then — last — the close, whether the extraction function returns
normally, returns an empty result, or raises. -/
theorem do_task_opens_injects_closes (ft : FuncTable) (taskRef : Nat)
    (write_to_file : Bool) (heap : DictHeap) (w : World) (fid : Nat) (f en : String)
    (hpf : alGet (heap.get taskRef) "prepare_func" = some (.func fid))
    (hfn : alGet (heap.get taskRef) "fn" = some (.str f))
    (hen : alGet (heap.get taskRef) "engine" = some (.str en))
    (hdfns : write_to_file = true →
      ∃ v, alGet (heap.get taskRef) "datasetfns" = some v) :
    ∃ kw mid,
      alGet kw "ds" = some (.dsh w.nextHandle) ∧
      (cutout_do_task ft taskRef write_to_file heap w).w.events
        = w.events ++ [Event.openedDS f en w.nextHandle, Event.calledPrep fid kw]
            ++ mid ++ [Event.closedDS w.nextHandle] := by
  simp only [cutout_do_task, DictHeap.get_alloc_new]
  generalize hd : heap.get taskRef = d at hpf hfn hen hdfns
  cases write_to_file with
  | false =>
    have h1 : alGet (alErase d "prepare_func") "fn" = some (.str f) := by
      rw [alGet_alErase_ne _ _ _ (by decide)]
      exact hfn
    have h2 : alGet (alErase (alErase d "prepare_func") "fn") "engine"
        = some (.str en) := by
      rw [alGet_alErase_ne _ _ _ (by decide), alGet_alErase_ne _ _ _ (by decide)]
      exact hen
    cases hc : ft.call fid
        (alSet (alErase (alErase (alErase d "prepare_func") "fn") "engine") "ds"
          (.dsh w.nextHandle)) with
    | ok dataOpt =>
      refine ⟨alSet (alErase (alErase (alErase d "prepare_func") "fn") "engine") "ds"
          (.dsh w.nextHandle), [], by simp, ?_⟩
      simp [do_task_core, tryBody, openInput, runPrep, exceptClause, finallyClose, hpf, h1, h2, hc]
    | error e =>
      cases harg : e.args with
      | nil =>
        refine ⟨alSet (alErase (alErase (alErase d "prepare_func") "fn") "engine") "ds"
            (.dsh w.nextHandle), [], by simp, ?_⟩
        simp [do_task_core, tryBody, openInput, runPrep, exceptClause, finallyClose, hpf, h1, h2, hc, harg]
      | cons a0 as =>
        refine ⟨alSet (alErase (alErase (alErase d "prepare_func") "fn") "engine") "ds"
            (.dsh w.nextHandle), [Event.logExc (ft.name fid) a0], by simp, ?_⟩
        simp [do_task_core, tryBody, openInput, runPrep, exceptClause, finallyClose, hpf, h1, h2, hc, harg]
  | true =>
    obtain ⟨v, hv⟩ := hdfns rfl
    have h0 : alGet (alErase d "prepare_func") "datasetfns" = some v := by
      rw [alGet_alErase_ne _ _ _ (by decide)]
      exact hv
    have h1 : alGet (alErase (alErase d "prepare_func") "datasetfns") "fn"
        = some (.str f) := by
      rw [alGet_alErase_ne _ _ _ (by decide), alGet_alErase_ne _ _ _ (by decide)]
      exact hfn
    have h2 : alGet (alErase (alErase (alErase d "prepare_func") "datasetfns") "fn")
        "engine" = some (.str en) := by
      rw [alGet_alErase_ne _ _ _ (by decide), alGet_alErase_ne _ _ _ (by decide),
          alGet_alErase_ne _ _ _ (by decide)]
      exact hen
    cases hc : ft.call fid
        (alSet (alErase (alErase (alErase (alErase d "prepare_func") "datasetfns")
          "fn") "engine") "ds" (.dsh w.nextHandle)) with
    | error e =>
      cases harg : e.args with
      | nil =>
        refine ⟨alSet (alErase (alErase (alErase (alErase d "prepare_func")
            "datasetfns") "fn") "engine") "ds" (.dsh w.nextHandle), [],
          by simp, ?_⟩
        simp [do_task_core, tryBody, openInput, runPrep, exceptClause, finallyClose, hpf, h0, h1, h2, hc, harg]
      | cons a0 as =>
        refine ⟨alSet (alErase (alErase (alErase (alErase d "prepare_func")
            "datasetfns") "fn") "engine") "ds" (.dsh w.nextHandle),
          [Event.logExc (ft.name fid) a0], by simp, ?_⟩
        simp [do_task_core, tryBody, openInput, runPrep, exceptClause, finallyClose, hpf, h0, h1, h2, hc, harg]
    | ok dataOpt =>
      have hkwds : alGet (alSet (alErase (alErase (alErase (alErase d
          "prepare_func") "datasetfns") "fn") "engine") "ds"
          (PyVal.dsh w.nextHandle)) "ds" = some (PyVal.dsh w.nextHandle) := by simp
      obtain ⟨evs, hevs⟩ := writeResults_events (dataOpt.getD []) (ft.name fid) v
        { fs := w.fs,
          events := w.events ++ [Event.openedDS f en w.nextHandle,
            Event.calledPrep fid (alSet (alErase (alErase (alErase (alErase d
              "prepare_func") "datasetfns") "fn") "engine") "ds"
              (PyVal.dsh w.nextHandle))],
          nextHandle := w.nextHandle + 1,
          openHandles := w.openHandles ++ [w.nextHandle] }
      rcases hwr : writeResults (ft.name fid) v (dataOpt.getD [])
        { fs := w.fs,
          events := w.events ++ [Event.openedDS f en w.nextHandle,
            Event.calledPrep fid (alSet (alErase (alErase (alErase (alErase d
              "prepare_func") "datasetfns") "fn") "engine") "ds"
              (PyVal.dsh w.nextHandle))],
          nextHandle := w.nextHandle + 1,
          openHandles := w.openHandles ++ [w.nextHandle] } with ⟨res, w3⟩
      rw [hwr] at hevs
      simp only at hevs
      cases res with
      | ok u =>
        refine ⟨_, evs, hkwds, ?_⟩
        simp [do_task_core, tryBody, openInput, runPrep, exceptClause, finallyClose, hpf, h0, h1, h2, hc, hwr, hevs]
      | error e =>
        cases harg : e.args with
        | nil =>
          refine ⟨_, evs, hkwds, ?_⟩
          simp [do_task_core, tryBody, openInput, runPrep, exceptClause, finallyClose, hpf, h0, h1, h2, hc, hwr, harg, hevs]
        | cons a0 as =>
          refine ⟨_, evs ++ [Event.logExc (ft.name fid) a0], hkwds, ?_⟩
          simp [do_task_core, tryBody, openInput, runPrep, exceptClause, finallyClose, hpf, h0, h1, h2, hc, hwr, harg, hevs]

theorem do_task_opens_injects_closes_witness :
    alGet (heapFn.get 0) "prepare_func" = some (.func 0) ∧
    alGet (heapFn.get 0) "fn" = some (.str "in.nc") ∧
    alGet (heapFn.get 0) "engine" = some (.str "netcdf4") ∧
    (∃ kw mid,
      alGet kw "ds" = some (.dsh w0.nextHandle) ∧
      (cutout_do_task ftNone 0 true heapFn w0).w.events
        = w0.events ++ [Event.openedDS "in.nc" "netcdf4" w0.nextHandle,
            Event.calledPrep 0 kw] ++ mid ++ [Event.closedDS w0.nextHandle]) :=
  ⟨rfl, rfl, rfl,
   do_task_opens_injects_closes ftNone 0 true heapFn w0 0 "in.nc" "netcdf4"
     rfl rfl rfl (fun _ => ⟨.fnsMap [], rfl⟩)⟩

theorem openInput_fs (task : PyDict) (w : World) :
    ((openInput task w).2.2).fs = w.fs := by
  rw [openInput]
  cases alGet task "fn" with
  | none => rfl
  | some fnv =>
    simp only []
    cases alGet (alErase task "fn") "engine" with
    | none => rfl
    | some env =>
      simp only []
      cases fnv <;> cases env <;> rfl

theorem runPrep_false_fs (ft : FuncTable) (pf : PyVal) (pfName : String)
    (dfns : Option PyVal) (task : PyDict) (w : World) :
    ((runPrep ft pf pfName dfns false task w).2.2).fs = w.fs := by
  cases pf with
  | func fid =>
    rw [runPrep]
    simp only []
    cases ft.call fid task with
    | error e => rfl
    | ok dataOpt => rfl
  | str s => rfl
  | num n => rfl
  | dsh h => rfl
  | fnsMap m => rfl
  | attrsV a => rfl

theorem tryBody_false_fs (ft : FuncTable) (pf : PyVal) (pfName : String)
    (dfns : Option PyVal) (task : PyDict) (w : World) :
    ((tryBody ft pf pfName dfns false task w).2.2).fs = w.fs := by
  rw [tryBody]
  rcases ho : openInput task w with ⟨res, task1, w1⟩
  have h1 : w1.fs = w.fs := by
    have := openInput_fs task w
    rw [ho] at this
    exact this
  cases res with
  | error e => exact h1
  | ok u => rw [runPrep_false_fs]; exact h1

theorem exceptClause_fs (pfName : String)
    (res : Except Exc (Option (List (YM × Dataset)))) (w : World) :
    ((exceptClause pfName res w).2).fs = w.fs := by
  cases res with
  | ok v => rfl
  | error e =>
    obtain ⟨ty, args⟩ := e
    cases args <;> rfl

theorem finallyClose_fs (task : PyDict)
    (res : Except Exc (Option (List (YM × Dataset)))) (w : World) :
    ((finallyClose task res w).2).fs = w.fs := by
  rw [finallyClose]
  cases alGet task "ds" with
  | none => rfl
  | some v => cases v <;> rfl

theorem do_task_core_false_fs (ft : FuncTable) (task : PyDict) (w : World) :
    ((do_task_core ft false task w).2.2).fs = w.fs := by
  rw [do_task_core]
  cases alGet task "prepare_func" with
  | none => rfl
  | some pf =>
    simp only [Bool.false_eq_true, if_false]
    rw [finallyClose_fs, exceptClause_fs, tryBody_false_fs]

/-- With `write_to_file=False` the executor touches no file: the
filesystem after `cutout_do_task` is the filesystem before. -/
theorem cutout_do_task_false_fs (ft : FuncTable) (taskRef : Nat)
    (heap : DictHeap) (w : World) :
    ((cutout_do_task ft taskRef false heap w).w).fs = w.fs := by
  simp only [cutout_do_task]
  rw [do_task_core_false_fs]

/-! ## Claim C7: the single-series preview invariant -/

/-- C7: `cutout_produce_specific_dataseries` generates the series' tasks
restricted to the single requested year-month (the task-generating
function is called with `yearmonths = [yearmonth]`, as the `tasks`
hypothesis of this theorem spells out), raises `AssertionError` unless
exactly one task is generated, raises `AssertionError` unless the run
produces exactly one result carrying the requested year-month, and
otherwise — exactly one task, and the run returning exactly one result
for the requested year-month — returns that single in-memory dataset
(third conjunct, and conversely an `ok` return can only arise that way,
second conjunct) — and never writes to disk: on every path the
filesystem is unchanged. -/
theorem produce_specific_contract (ft : FuncTable) (tt : TasksTable)
    (cutout : Cutout) (yearmonth : YM) (series_name : String)
    (heap : DictHeap) (w : World) (series : SeriesCfg) (tasks : List PyDict)
    (hser : alGet cutout.weather_data_config series_name = some series)
    (htasks : tt.call series.tasks_func cutout.xs cutout.ys [yearmonth]
        (alSet series.params "meta_attrs" (.attrsV cutout.meta_attrs)) = tasks) :
    (tasks.length ≠ 1 →
      cutout_produce_specific_dataseries ft tt cutout yearmonth series_name heap w
        = (.error ⟨"AssertionError", []⟩, heap, w)) ∧
    (∀ t, tasks = [t] → ∀ d,
      (cutout_produce_specific_dataseries ft tt cutout yearmonth series_name heap w).1
          = .ok d →
      (cutout_do_task ft (heap.alloc t).2 false (heap.alloc t).1 w).ret
          = .ok (some [(yearmonth, d)])) ∧
    (∀ t, tasks = [t] → ∀ d,
      (cutout_do_task ft (heap.alloc t).2 false (heap.alloc t).1 w).ret
          = .ok (some [(yearmonth, d)]) →
      cutout_produce_specific_dataseries ft tt cutout yearmonth series_name heap w
        = (.ok d,
           (cutout_do_task ft (heap.alloc t).2 false (heap.alloc t).1 w).heap,
           (cutout_do_task ft (heap.alloc t).2 false (heap.alloc t).1 w).w)) ∧
    (∀ t, tasks = [t] → ∀ l,
      (cutout_do_task ft (heap.alloc t).2 false (heap.alloc t).1 w).ret
          = .ok (some l) →
      (∀ d, l ≠ [(yearmonth, d)]) →
      (cutout_produce_specific_dataseries ft tt cutout yearmonth series_name heap w).1
          = .error ⟨"AssertionError", []⟩) ∧
    ((cutout_produce_specific_dataseries ft tt cutout yearmonth series_name heap w).2.2).fs
        = w.fs := by
  simp only [cutout_produce_specific_dataseries, hser, htasks]
  refine ⟨?_, ?_, ?_, ?_, ?_⟩
  · intro hlen
    cases tasks with
    | nil => rfl
    | cons t ts =>
      cases ts with
      | nil => simp at hlen
      | cons t2 ts2 => rfl
  · intro t ht d hok
    subst ht
    simp only [] at hok
    cases hret : (cutout_do_task ft (heap.alloc t).2 false (heap.alloc t).1 w).ret with
    | error e => rw [hret] at hok; cases hok
    | ok dataOpt =>
      rw [hret] at hok
      cases dataOpt with
      | none => cases hok
      | some data =>
        rcases data with _ | ⟨⟨ym1, d1⟩, _ | ⟨p2, rest⟩⟩
        · cases hok
        · by_cases hym : ym1 = yearmonth
          · subst hym
            simp only [if_pos rfl] at hok
            cases hok
            rfl
          · simp only [if_neg hym] at hok
            cases hok
        · cases hok
  · intro t ht d hret
    subst ht
    simp only []
    rw [hret]
    simp
  · intro t ht l hret hne
    subst ht
    simp only []
    rw [hret]
    rcases l with _ | ⟨⟨ym1, d1⟩, _ | ⟨p2, rest⟩⟩
    · rfl
    · by_cases hym : ym1 = yearmonth
      · subst hym
        exact absurd rfl (hne d1)
      · simp only [if_neg hym]
    · rfl
  · cases tasks with
    | nil => rfl
    | cons t ts =>
      cases ts with
      | cons t2 ts2 => rfl
      | nil =>
        simp only []
        cases hret : (cutout_do_task ft (heap.alloc t).2 false (heap.alloc t).1 w).ret with
        | error e => simp [hret, cutout_do_task_false_fs]
        | ok dataOpt =>
          cases dataOpt with
          | none => simp [hret, cutout_do_task_false_fs]
          | some data =>
            rcases data with _ | ⟨⟨ym1, d1⟩, _ | ⟨p2, rest⟩⟩
            · simp [hret, cutout_do_task_false_fs]
            · by_cases hym : ym1 = yearmonth <;>
                simp [hret, hym, cutout_do_task_false_fs]
            · simp [hret, cutout_do_task_false_fs]

/-- A series configuration for the preview witness. -/
def sWnd : SeriesCfg := ⟨0, []⟩

/-- The single task the preview witness generates. -/
def taskW : PyDict := [("prepare_func", .func 0)]

/-- A task table returning exactly that one task. -/
def ttOne : TasksTable := ⟨fun _ _ _ _ _ => [taskW]⟩

/-- An extraction table returning one result for January 2013. -/
def ftOne : FuncTable :=
  ⟨fun _ => "prep_one", fun _ _ => .ok (some [((2013, 1), ⟨[("wnd", .num 3)], false⟩)])⟩

/-- A cutout with a single configured series named `wnd`. -/
def cutSeries : Cutout :=
  { name := "c1", cutout_dir := "/data/c1", xs := [0], ys := [0],
    yearmonths := [(2013, 1)], prepared := false,
    weather_data_config := [("wnd", sWnd)], meta_attrs := [],
    datasetfnMeta := "/data/c1/meta.nc",
    datasetfnYM := fun ym => "/data/c1/" ++ pyFormat ym.1 ++ ".nc",
    meta_data_config := mcfg0 }

theorem produce_specific_contract_witness :
    alGet cutSeries.weather_data_config "wnd" = some sWnd ∧
    ttOne.call sWnd.tasks_func cutSeries.xs cutSeries.ys [(2013, 1)]
        (alSet sWnd.params "meta_attrs" (.attrsV cutSeries.meta_attrs)) = [taskW] ∧
    (cutout_do_task ftOne ((⟨[]⟩ : DictHeap).alloc taskW).2 false
        ((⟨[]⟩ : DictHeap).alloc taskW).1 w0).ret
      = .ok (some [((2013, 1), ⟨[("wnd", .num 3)], true⟩)]) ∧
    cutout_produce_specific_dataseries ftOne ttOne cutSeries (2013, 1) "wnd" ⟨[]⟩ w0
      = (.ok ⟨[("wnd", .num 3)], true⟩,
         (cutout_do_task ftOne ((⟨[]⟩ : DictHeap).alloc taskW).2 false
            ((⟨[]⟩ : DictHeap).alloc taskW).1 w0).heap,
         (cutout_do_task ftOne ((⟨[]⟩ : DictHeap).alloc taskW).2 false
            ((⟨[]⟩ : DictHeap).alloc taskW).1 w0).w) ∧
    ((cutout_produce_specific_dataseries ftOne ttOne cutSeries (2013, 1) "wnd"
        ⟨[]⟩ w0).2.2).fs = w0.fs :=
  ⟨rfl, rfl, rfl,
   (produce_specific_contract ftOne ttOne cutSeries (2013, 1) "wnd" ⟨[]⟩ w0 sWnd
      [taskW] rfl rfl).2.2.1 taskW rfl ⟨[("wnd", .num 3)], true⟩ rfl,
   (produce_specific_contract ftOne ttOne cutSeries (2013, 1) "wnd" ⟨[]⟩ w0 sWnd
      [taskW] rfl rfl).2.2.2.2⟩

/-! ## Claim C2: output-name injection and disambiguation -/

theorem datasetfn_with_id_inj (cutout : Cutout) (i j : Nat) (ym : YM)
    (h : datasetfn_with_id cutout i ym = datasetfn_with_id cutout j ym) : i = j := by
  apply pyFormat_inj
  have hd := congrArg String.data h
  simp only [datasetfn_with_id, String.data_append, List.append_assoc] at hd
  have h1 := List.append_cancel_left hd
  have h2 := List.append_cancel_left h1
  have h3 := List.append_cancel_right h2
  exact congrArg String.mk h3

theorem alGet_map_self (l : List YM) (f : YM → String) (ym0 : YM) (h : ym0 ∈ l) :
    alGet (l.map (fun ym => (ym, f ym))) ym0 = some (f ym0) := by
  induction l with
  | nil => cases h
  | cons a as ih =>
    simp only [List.map_cons, alGet_cons]
    by_cases ha : a = ym0
    · subst ha
      simp
    · rw [if_neg ha]
      apply ih
      cases List.mem_cons.mp h with
      | inl hh => exact absurd hh.symm ha
      | inr hh => exact hh

theorem prepareAllocInject_len (cutout : Cutout) :
    ∀ (ts : List PyDict) (i0 : Nat) (heap : DictHeap),
      (prepareAllocInject cutout ts i0 heap).2.length = ts.length := by
  intro ts
  induction ts with
  | nil =>
    intro i0 heap
    rfl
  | cons t ts ih =>
    intro i0 heap
    simp [prepareAllocInject, ih]

theorem prepareAllocInject_get_old (cutout : Cutout) :
    ∀ (ts : List PyDict) (i0 : Nat) (heap : DictHeap) (r : Nat),
      r < heap.cells.length →
      (prepareAllocInject cutout ts i0 heap).1.get r = heap.get r := by
  intro ts
  induction ts with
  | nil =>
    intro i0 heap r hr
    rfl
  | cons t ts ih =>
    intro i0 heap r hr
    simp only [prepareAllocInject]
    rw [ih (i0 + 1) _ r (by simp; omega)]
    exact DictHeap.get_alloc_old heap _ r hr

theorem prepareAllocInject_get (cutout : Cutout) :
    ∀ (ts : List PyDict) (i0 : Nat) (heap : DictHeap) (k : Nat), k < ts.length →
      (prepareAllocInject cutout ts i0 heap).1.get
          ((prepareAllocInject cutout ts i0 heap).2.getD k 0)
        = alSet (ts.getD k []) "datasetfns"
            (.fnsMap (cutout.yearmonths.map
              (fun ym => (ym, datasetfn_with_id cutout (i0 + k) ym)))) := by
  intro ts
  induction ts with
  | nil =>
    intro i0 heap k hk
    cases hk
  | cons t ts ih =>
    intro i0 heap k hk
    simp only [prepareAllocInject]
    cases k with
    | zero =>
      simp only [List.getD_cons_zero]
      rw [prepareAllocInject_get_old cutout ts (i0 + 1) _ _ (by simp [DictHeap.alloc])]
      simp [DictHeap.get_alloc_new]
    | succ k' =>
      simp only [List.getD_cons_succ]
      have hidx : i0 + (k' + 1) = (i0 + 1) + k' := by omega
      rw [hidx]
      exact ih (i0 + 1) _ k' (by simpa using Nat.lt_of_succ_lt_succ hk)

/-- C2: in `cutout_prepare`'s output-name injection, the task at
position `k` receives the year-month → filename mapping obtained by
inserting the `-{k}` suffix before the extension of the cutout's
canonical per-month filename, for every year-month of the cutout's
index; and for two distinct task positions the assigned filenames
differ at every shared year-month of the index. -/
theorem prepare_output_name_injection (cutout : Cutout) (tasks : List PyDict)
    (heap : DictHeap) :
    (∀ k, k < tasks.length →
      alGet ((prepareAllocInject cutout tasks 0 heap).1.get
          ((prepareAllocInject cutout tasks 0 heap).2.getD k 0)) "datasetfns"
        = some (.fnsMap (cutout.yearmonths.map
            (fun ym => (ym, datasetfn_with_id cutout k ym))))) ∧
    (∀ i j : Nat, i ≠ j → ∀ ym ∈ cutout.yearmonths,
      alGet (cutout.yearmonths.map
          (fun ym' => (ym', datasetfn_with_id cutout i ym'))) ym
        ≠ alGet (cutout.yearmonths.map
            (fun ym' => (ym', datasetfn_with_id cutout j ym'))) ym) := by
  constructor
  · intro k hk
    rw [prepareAllocInject_get cutout tasks 0 heap k hk]
    simp
  · intro i j hij ym hym
    rw [alGet_map_self _ _ _ hym, alGet_map_self _ _ _ hym]
    intro h
    exact hij (datasetfn_with_id_inj cutout i j ym (Option.some.inj h))

/-- Two task dicts for the injection witness. -/
def tasks2 : List PyDict := [[("prepare_func", .func 0)], [("prepare_func", .func 1)]]

/-- A cutout whose canonical January-2013 file is `/d/2013-1.nc`. -/
def cutW : Cutout :=
  { name := "cw", cutout_dir := "/d", xs := [0], ys := [0],
    yearmonths := [(2013, 1)], prepared := false,
    weather_data_config := [], meta_attrs := [],
    datasetfnMeta := "/d/meta.nc",
    datasetfnYM := fun ym => "/d/" ++ pyFormat ym.1 ++ "-" ++ pyFormat ym.2 ++ ".nc",
    meta_data_config := mcfg0 }

theorem prepare_output_name_injection_witness :
    0 < tasks2.length ∧
    alGet ((prepareAllocInject cutW tasks2 0 ⟨[]⟩).1.get
        ((prepareAllocInject cutW tasks2 0 ⟨[]⟩).2.getD 0 0)) "datasetfns"
      = some (.fnsMap (cutW.yearmonths.map
          (fun ym => (ym, datasetfn_with_id cutW 0 ym)))) ∧
    (0 : Nat) ≠ 1 ∧ (2013, 1) ∈ cutW.yearmonths ∧
    alGet (cutW.yearmonths.map
        (fun ym' => (ym', datasetfn_with_id cutW 0 ym'))) (2013, 1)
      ≠ alGet (cutW.yearmonths.map
          (fun ym' => (ym', datasetfn_with_id cutW 1 ym'))) (2013, 1) :=
  ⟨by decide,
   (prepare_output_name_injection cutW tasks2 ⟨[]⟩).1 0 (by decide),
   by decide, by decide,
   (prepare_output_name_injection cutW tasks2 ⟨[]⟩).2 0 1 (by decide) (2013, 1)
     (by decide)⟩

/-! ## Claim C1: abort-and-purge atomicity of the orchestrator -/

/-- C1: whenever a task raises during pool execution (the pool phase,
which stops at the first raised exception, produces `.error e`),
`cutout_prepare` terminates the remaining pool work, deletes the entire
output directory, and propagates that exception; hence after `prepare`
raises, the output directory does not exist and no file inside it
remains. -/
theorem prepare_abort_purges (env : GebcoEnv) (ft : FuncTable) (tt : TasksTable)
    (cutout : Cutout) (overwrite : Bool) (nprocesses : Option Nat)
    (gebco_height : Bool) (heap : DictHeap) (w : World)
    (cut1 : Cutout) (w1 : World) (e : Exc) (heap2 : DictHeap) (w2 : World)
    (hpre : (cutout.prepared && !overwrite) = false)
    (hgeb : prepareHeights env cutout gebco_height w = (.ok cut1, w1))
    (hpool : poolMap ft
        (prepareAllocInject cut1 (prepareBuildTasks tt cut1) 0 heap).2
        (prepareAllocInject cut1 (prepareBuildTasks tt cut1) 0 heap).1
        { w1 with fs := prepareResetFS cut1 w1.fs } = (.error e, heap2, w2)) :
    cutout_prepare env ft tt cutout overwrite nprocesses gebco_height heap w
      = (.error e, cut1, heap2,
         { w2 with events := w2.events ++ [.poolTerminated],
                   fs := w2.fs.rmtree cut1.cutout_dir }) ∧
    ((cutout_prepare env ft tt cutout overwrite nprocesses gebco_height heap w
        ).2.2.2).fs.isdir cut1.cutout_dir = false ∧
    filesUnder ((cutout_prepare env ft tt cutout overwrite nprocesses gebco_height
        heap w).2.2.2).fs cut1.cutout_dir = [] := by
  have hmain : cutout_prepare env ft tt cutout overwrite nprocesses gebco_height heap w
      = (.error e, cut1, heap2,
         { w2 with events := w2.events ++ [.poolTerminated],
                   fs := w2.fs.rmtree cut1.cutout_dir }) := by
    simp [cutout_prepare, hpre, hgeb, hpool]
  refine ⟨hmain, ?_, ?_⟩ <;> rw [hmain] <;> simp

/-- A task table producing one failing task per series. -/
def ttFail : TasksTable := ⟨fun _ _ _ _ _ => [[("prepare_func", .func 0)]]⟩

/-- A cutout with one configured series, for the abort witness. -/
def cutFail : Cutout :=
  { name := "cf", cutout_dir := "/d", xs := [0], ys := [0],
    yearmonths := [(2013, 1)], prepared := false,
    weather_data_config := [("wnd", sWnd)], meta_attrs := [],
    datasetfnMeta := "/d/meta.nc",
    datasetfnYM := fun ym => "/d/" ++ pyFormat ym.1 ++ "-" ++ pyFormat ym.2 ++ ".nc",
    meta_data_config := mcfg0 }

/-- The external environment with a working gdalwarp (unused: the abort
witness does not request height computation). -/
def env0 : GebcoEnv := ⟨some 0, "gebco.nc"⟩

theorem prepare_abort_purges_witness :
    (cutFail.prepared && !false) = false ∧
    prepareHeights env0 cutFail false w0 = (.ok cutFail, w0) ∧
    ((cutout_prepare env0 ftValueError ttFail cutFail false none false ⟨[]⟩ w0
        ).2.2.2).fs.isdir cutFail.cutout_dir = false :=
  ⟨rfl, rfl,
   (prepare_abort_purges env0 ftValueError ttFail cutFail false none false ⟨[]⟩ w0
      cutFail w0 ⟨"ValueError", ["bad data"]⟩ _ _ rfl rfl rfl).2.1⟩

/-! ## Claim C6: the per-month merge -/

theorem lookupFile_unlink_self (fs : FS) (f : String) :
    (fs.unlink f).lookupFile f = none := by
  simp [FS.unlink, FS.lookupFile]

theorem lookupFile_unlink_ne (fs : FS) (f g : String) (h : f ≠ g) :
    (fs.unlink g).lookupFile f = fs.lookupFile f := by
  simp [FS.unlink, FS.lookupFile, alGet_alErase_ne _ _ _ h]

theorem lookupFile_writeFile_self (fs : FS) (fn : String) (ds : Dataset) :
    (fs.writeFile fn ds).lookupFile fn = some ds := by
  simp [FS.writeFile, FS.lookupFile]

theorem lookupFile_foldl_unlink_not_mem :
    ∀ (l : List String) (fs0 : FS) (f : String), f ∉ l →
      ((l.foldl (fun acc g => acc.unlink g) fs0).lookupFile f) = fs0.lookupFile f := by
  intro l
  induction l with
  | nil =>
    intro fs0 f h
    rfl
  | cons g gs ih =>
    intro fs0 f h
    simp only [List.foldl_cons]
    rw [ih _ f (fun hm => h (List.mem_cons_of_mem _ hm)),
        lookupFile_unlink_ne _ _ _
          (fun he => h (by rw [he]; exact List.mem_cons_self _ _))]

theorem lookupFile_foldl_unlink_none :
    ∀ (l : List String) (fs0 : FS) (f : String), fs0.lookupFile f = none →
      ((l.foldl (fun acc g => acc.unlink g) fs0).lookupFile f) = none := by
  intro l
  induction l with
  | nil =>
    intro fs0 f h
    exact h
  | cons g gs ih =>
    intro fs0 f h
    simp only [List.foldl_cons]
    apply ih
    by_cases hfg : f = g
    · subst hfg
      exact lookupFile_unlink_self fs0 f
    · rw [lookupFile_unlink_ne _ _ _ hfg]
      exact h

theorem lookupFile_foldl_unlink_mem :
    ∀ (l : List String) (fs0 : FS) (f : String), f ∈ l →
      ((l.foldl (fun acc g => acc.unlink g) fs0).lookupFile f) = none := by
  intro l
  induction l with
  | nil =>
    intro fs0 f h
    cases h
  | cons g gs ih =>
    intro fs0 f h
    simp only [List.foldl_cons]
    by_cases hfg : f = g
    · subst hfg
      exact lookupFile_foldl_unlink_none gs _ f (lookupFile_unlink_self fs0 f)
    · apply ih
      cases List.mem_cons.mp h with
      | inl hh => exact absurd hh hfg
      | inr hh => exact hh

theorem mem_keys_alErase {α : Type} (l : List (String × α)) (k v : String) :
    v ∈ (alErase l k).map (fun p => p.1) ↔ v ∈ l.map (fun p => p.1) ∧ v ≠ k := by
  induction l with
  | nil => simp [alErase]
  | cons p ps ih =>
    by_cases hp : p.1 = k <;> simp [alErase, hp, ih] <;> aesop

theorem mem_keys_alSet {α : Type} (l : List (String × α)) (k v : String) (x : α) :
    v ∈ (alSet l k x).map (fun p => p.1) ↔ v ∈ l.map (fun p => p.1) ∨ v = k := by
  rw [alSet, List.map_append, List.mem_append, mem_keys_alErase]
  simp only [List.map_cons, List.map_nil, List.mem_singleton]
  constructor
  · rintro (⟨h1, _⟩ | h2)
    · exact Or.inl h1
    · exact Or.inr h2
  · rintro (h1 | h2)
    · by_cases hvk : v = k
      · exact Or.inr hvk
      · exact Or.inl ⟨h1, hvk⟩
    · exact Or.inr h2

theorem mem_keys_flatMap_vars (dss : List Dataset) (v : String) :
    v ∈ (dss.flatMap (·.vars)).map (fun p => p.1) ↔ ∃ ds ∈ dss, v ∈ ds.varNames := by
  simp only [List.mem_map, List.mem_flatMap, Dataset.varNames]
  constructor
  · rintro ⟨p, ⟨ds, hds, hp⟩, hv⟩
    exact ⟨ds, hds, p, hp, hv⟩
  · rintro ⟨ds, hds, p, hp, hv⟩
    exact ⟨p, ⟨ds, hds, hp⟩, hv⟩

theorem mem_vars_filterMap (fs : FS) (fns : List String) (v : String) :
    (∃ ds ∈ fns.filterMap (fun f => fs.lookupFile f), v ∈ ds.varNames)
      ↔ ∃ f ∈ fns, ∃ dsp, fs.lookupFile f = some dsp ∧ v ∈ dsp.varNames := by
  simp only [List.mem_filterMap]
  constructor
  · rintro ⟨ds, ⟨f, hf, hds⟩, hv⟩
    exact ⟨f, hf, ds, hds, hv⟩
  · rintro ⟨f, hf, ds, hds, hv⟩
    exact ⟨ds, ⟨f, hf, hds⟩, hv⟩

theorem mem_merged_vars (fs : FS) (fns : List String) (v : String) :
    v ∈ ((fns.filterMap (fun f => fs.lookupFile f)).flatMap (·.vars)).map (fun p => p.1)
      ↔ ∃ f ∈ fns, ∃ dsp, fs.lookupFile f = some dsp ∧ v ∈ dsp.varNames :=
  (mem_keys_flatMap_vars _ v).trans (mem_vars_filterMap fs fns v)

/-- C6: for a year-month of the cutout's index (as processed by
`mergeStage` month by month), the merge collects every file on disk whose
name matches the month's canonical stem followed by the disambiguation
suffix (the glob `base + "-*" + ext`), opens them jointly as one combined
dataset, overlays the static height field when height computation was
requested, writes the combined dataset — holding the union of all
contributed variables, plus `height` when enabled — to the canonical
monthly filename, and deletes every merged partial file. -/
theorem mergeMonth_merges (cutout : Cutout) (gebco_height : Bool) (fs : FS)
    (ym : YM) (fns : List String)
    (hfns : (fs.files.map (·.1)).filter
        (matchesGlobDashStar (splitext (cutout.datasetfnYM ym)).1
          (splitext (cutout.datasetfnYM ym)).2) = fns)
    (hne : fns ≠ [])
    (hhgt : gebco_height = true → ∃ hf, cutout.metaHeight = some hf) :
    ∃ fs',
      mergeMonth cutout gebco_height fs ym = .ok fs' ∧
      (∀ v : String,
        (∃ dsm, fs'.lookupFile (cutout.datasetfnYM ym) = some dsm ∧ v ∈ dsm.varNames)
          ↔ ((∃ f ∈ fns, ∃ dsp, fs.lookupFile f = some dsp ∧ v ∈ dsp.varNames)
              ∨ (gebco_height = true ∧ v = "height"))) ∧
      (∀ f ∈ fns, fs'.lookupFile f = none) := by
  have hmem : ∀ f ∈ fns, matchesGlobDashStar (splitext (cutout.datasetfnYM ym)).1
      (splitext (cutout.datasetfnYM ym)).2 f = true := by
    intro f hf
    rw [← hfns] at hf
    exact (List.mem_filter.mp hf).2
  have hfn_not : cutout.datasetfnYM ym ∉ fns := by
    intro hf
    have h1 := hmem _ hf
    have h2 : matchesGlobDashStar (splitext (cutout.datasetfnYM ym)).1
        (splitext (cutout.datasetfnYM ym)).2
        ((splitext (cutout.datasetfnYM ym)).1 ++ (splitext (cutout.datasetfnYM ym)).2)
          = true := by
      rw [splitext_append]
      exact h1
    rw [matchesGlobDashStar_self_false] at h2
    cases h2
  have hempty : fns.isEmpty = false := by
    cases fns with
    | nil => exact absurd rfl hne
    | cons a l => rfl
  cases gebco_height with
  | false =>
    refine ⟨fns.foldl (fun acc f => acc.unlink f)
        (fs.writeFile (cutout.datasetfnYM ym)
          ⟨(fns.filterMap (fun f => fs.lookupFile f)).flatMap (·.vars), false⟩),
      ?_, ?_, ?_⟩
    · simp only [mergeMonth, hfns, hempty, Bool.false_eq_true, if_false]
    · intro v
      rw [lookupFile_foldl_unlink_not_mem _ _ _ hfn_not,
          lookupFile_writeFile_self]
      simp only [Option.some.injEq, Bool.false_eq_true, false_and, or_false]
      constructor
      · rintro ⟨dsm, hdsm, hv⟩
        subst hdsm
        simp only [Dataset.varNames] at hv
        exact (mem_merged_vars fs fns v).mp hv
      · intro hr
        exact ⟨_, rfl, (mem_merged_vars fs fns v).mpr hr⟩
    · intro f hf
      exact lookupFile_foldl_unlink_mem _ _ _ hf
  | true =>
    obtain ⟨hf, hhf⟩ := hhgt rfl
    refine ⟨fns.foldl (fun acc f => acc.unlink f)
        (fs.writeFile (cutout.datasetfnYM ym)
          ⟨alSet ((fns.filterMap (fun f => fs.lookupFile f)).flatMap (·.vars))
            "height" (.hgt hf.1 hf.2), false⟩),
      ?_, ?_, ?_⟩
    · simp only [mergeMonth, hfns, hempty, hhf, Bool.false_eq_true, if_false]
      rfl
    · intro v
      rw [lookupFile_foldl_unlink_not_mem _ _ _ hfn_not,
          lookupFile_writeFile_self]
      simp only [Option.some.injEq]
      constructor
      · rintro ⟨dsm, hdsm, hv⟩
        subst hdsm
        simp only [Dataset.varNames] at hv
        cases (mem_keys_alSet _ "height" v _).mp hv with
        | inl h => exact Or.inl ((mem_merged_vars fs fns v).mp h)
        | inr h => exact Or.inr ⟨by trivial, h⟩
      · intro hr
        refine ⟨_, rfl, ?_⟩
        simp only [Dataset.varNames]
        apply (mem_keys_alSet _ "height" v _).mpr
        cases hr with
        | inl h => exact Or.inl ((mem_merged_vars fs fns v).mpr h)
        | inr h => exact Or.inr h.2
    · intro f hff
      exact lookupFile_foldl_unlink_mem _ _ _ hff

/-- A filesystem holding two partial files for January 2013 with
disjoint variable sets. -/
def fs6 : FS :=
  ⟨["/d"], [("/d/2013-1-0.nc", ⟨[("wnd", .num 1)], false⟩),
            ("/d/2013-1-1.nc", ⟨[("infl", .num 2)], false⟩)]⟩

/-- The two partial filenames fs6 holds. -/
def fns6 : List String := ["/d/2013-1-0.nc", "/d/2013-1-1.nc"]

/-- A cutout with a computed height field, for the merge witness. -/
def cutM : Cutout :=
  { name := "cm", cutout_dir := "/d", xs := [0], ys := [0],
    yearmonths := [(2013, 1)], prepared := false,
    weather_data_config := [], meta_attrs := [],
    metaHeight := some ("gebco.nc", "nearest"),
    datasetfnMeta := "/d/meta.nc",
    datasetfnYM := fun ym => "/d/" ++ pyFormat ym.1 ++ "-" ++ pyFormat ym.2 ++ ".nc",
    meta_data_config := mcfg0 }

theorem mergeMonth_merges_witness :
    ((fs6.files.map (·.1)).filter
        (matchesGlobDashStar (splitext (cutM.datasetfnYM (2013, 1))).1
          (splitext (cutM.datasetfnYM (2013, 1))).2) = fns6) ∧
    fns6 ≠ [] ∧
    (∃ fs',
      mergeMonth cutM true fs6 (2013, 1) = .ok fs' ∧
      (∀ v : String,
        (∃ dsm, fs'.lookupFile (cutM.datasetfnYM (2013, 1)) = some dsm ∧
            v ∈ dsm.varNames)
          ↔ ((∃ f ∈ fns6, ∃ dsp, fs6.lookupFile f = some dsp ∧ v ∈ dsp.varNames)
              ∨ (true = true ∧ v = "height"))) ∧
      (∀ f ∈ fns6, fs'.lookupFile f = none)) :=
  ⟨by decide, by decide,
   mergeMonth_merges cutM true fs6 (2013, 1) fns6 (by decide) (by decide)
     (fun _ => ⟨("gebco.nc", "nearest"), rfl⟩)⟩

/-! ## Claim C9: the metadata materializer -/

theorem mem_dateRange (a b step t : Int) (hstep : 0 < step) :
    t ∈ dateRange a b step ↔ ∃ k : Nat, t = a + step * (k : Int) ∧ t ≤ b := by
  have hs0 : 0 < step.toNat := by omega
  rw [dateRange]
  by_cases hba : b < a
  · rw [if_pos (Or.inr hba)]
    simp only [List.not_mem_nil, false_iff, not_exists, not_and]
    intro k hk
    have hnn : (0 : Int) ≤ step * (k : Int) :=
      mul_nonneg hstep.le (Int.natCast_nonneg k)
    intro hle
    linarith
  · have hab : a ≤ b := not_lt.mp hba
    have hne : ¬(step ≤ 0 ∨ b < a) := by
      push_neg
      exact ⟨hstep, hab⟩
    rw [if_neg hne]
    have hkey : ∀ k : Nat, (k < (b - a).toNat / step.toNat + 1)
        ↔ (a + step * (k : Int) ≤ b) := by
      intro k
      rw [Nat.lt_succ_iff, Nat.le_div_iff_mul_le hs0,
          Int.le_toNat (by omega : (0 : Int) ≤ b - a)]
      push_cast [Int.toNat_of_nonneg hstep.le]
      constructor <;> intro h <;> linarith
    rw [List.mem_map]
    constructor
    · rintro ⟨k, hk, rfl⟩
      rw [List.mem_range] at hk
      exact ⟨k, rfl, by linarith [(hkey k).mp hk]⟩
    · rintro ⟨k, hkt, hle⟩
      exact ⟨k, List.mem_range.mpr ((hkey k).mpr (by linarith)), hkt.symm⟩

/-- C9: `cutout_get_meta` invokes the dataset-specific
metadata-preparation function only for the last month of the requested
range; it rebuilds the time axis as the arithmetic progression whose
step is inferred from the first two time values of that month, anchored
at the first month's begin plus the observed start offset and bounded by
the last month's end plus the observed end offset — thereby replicating
the observed intra-month pattern across the whole range; and it stacks
the year and month coordinates into a compound `year-month` index
holding exactly every year/month combination of the range. -/
theorem get_meta_contract (cutout : Cutout) (xs ys : List Int) (years : PySlice)
    (monthsArg : Option PySlice) (dataset_params : List (String × String))
    (ds : MetaDS) (t0 t1 : Int) (rest : List Int)
    (hds : cutout.meta_data_config.prepare_func xs ys years.stop
        ((monthsArg.getD ⟨1, 12⟩).stop)
        (attrsUpdate cutout.meta_data_config.params dataset_params) = ds)
    (htime : ds.timeVals = t0 :: t1 :: rest)
    (hstep : 0 < timedeltaHoursComponent (t1 - t0)) :
    ∃ r : MetaResult,
      cutout_get_meta cutout xs ys years monthsArg dataset_params = .ok r ∧
      r.calls = [(years.stop, (monthsArg.getD ⟨1, 12⟩).stop)] ∧
      (∀ t : Int, t ∈ r.timeVals ↔ ∃ k : Nat,
        t = (monthBegin years.start (monthsArg.getD ⟨1, 12⟩).start
              + (t0 - monthBegin years.stop (monthsArg.getD ⟨1, 12⟩).stop))
            + timedeltaHoursComponent (t1 - t0) * (k : Int) ∧
        t ≤ nextMonthBegin years.stop (monthsArg.getD ⟨1, 12⟩).stop
              + ((t1 :: rest).getLastD 0
                  - nextMonthBegin years.stop (monthsArg.getD ⟨1, 12⟩).stop)) ∧
      (∀ y m : Nat, (y, m) ∈ r.ymIndex ↔
        (years.start ≤ y ∧ y ≤ years.stop ∧
         (monthsArg.getD ⟨1, 12⟩).start ≤ m ∧ m ≤ (monthsArg.getD ⟨1, 12⟩).stop)) := by
  simp only [cutout_get_meta, hds, htime]
  rw [if_neg (by omega : ¬(timedeltaHoursComponent (t1 - t0) = 0))]
  refine ⟨_, rfl, rfl, ?_, ?_⟩
  · intro t
    exact mem_dateRange _ _ _ t hstep
  · intro y m
    simp only [List.mem_flatMap, List.mem_map, Prod.mk.injEq, List.mem_range']
    constructor
    · rintro ⟨y', ⟨i, hi, hy'⟩, m', ⟨j, hj, hm'⟩, heq1, heq2⟩
      omega
    · rintro ⟨h1, h2, h3, h4⟩
      exact ⟨y, ⟨y - years.start, by omega⟩, m,
        ⟨m - (monthsArg.getD ⟨1, 12⟩).start, by omega⟩, rfl, rfl⟩

/-- A metadata configuration whose preparation collaborator reports a
3-hourly sampling with three time values. -/
def mcfgMeta : MetaCfg := ⟨fun _ _ _ _ _ => ⟨[0, 3, 6], []⟩, []⟩

/-- A cutout for the metadata witness. -/
def cutMeta : Cutout :=
  { name := "cg", cutout_dir := "/g", xs := [], ys := [], yearmonths := [],
    prepared := false, weather_data_config := [], meta_attrs := [],
    datasetfnMeta := "/g/meta.nc",
    datasetfnYM := fun _ => "/g/m.nc",
    meta_data_config := mcfgMeta }

theorem get_meta_contract_witness :
    cutMeta.meta_data_config.prepare_func [] [] 2012 1
        (attrsUpdate cutMeta.meta_data_config.params []) = ⟨[0, 3, 6], []⟩ ∧
    (⟨[0, 3, 6], []⟩ : MetaDS).timeVals = 0 :: 3 :: [6] ∧
    0 < timedeltaHoursComponent (3 - 0) ∧
    (∃ r : MetaResult,
      cutout_get_meta cutMeta [] [] ⟨2012, 2012⟩ (some ⟨1, 1⟩) [] = .ok r ∧
      r.calls = [(2012, 1)] ∧
      (∀ t : Int, t ∈ r.timeVals ↔ ∃ k : Nat,
        t = (monthBegin 2012 1 + (0 - monthBegin 2012 1))
            + timedeltaHoursComponent (3 - 0) * (k : Int) ∧
        t ≤ nextMonthBegin 2012 1
              + (((3 : Int) :: [6]).getLastD 0 - nextMonthBegin 2012 1)) ∧
      (∀ y m : Nat, (y, m) ∈ r.ymIndex ↔
        (2012 ≤ y ∧ y ≤ 2012 ∧ 1 ≤ m ∧ m ≤ 1))) :=
  ⟨rfl, rfl, by decide,
   get_meta_contract cutMeta [] [] ⟨2012, 2012⟩ (some ⟨1, 1⟩) [] ⟨[0, 3, 6], []⟩
     0 3 [6] rfl rfl (by decide)⟩
